import Mathlib

/-!
Verification development for the WAF engine of the cyber-sentiels-team
repository (`tools/waf/app.py`).

The Python source is shallowly embedded: every definition below is a direct
translation of the corresponding Python function (names are kept); stateful
code is expressed by explicit state passing; the network, the clock and the
shared map file are explicit inputs.  Calls into the Python standard library
(`urllib.parse.unquote_plus`, `html.unescape`, `html.escape`,
`unicodedata.normalize`, `hashlib.sha256`, `re.search`) are modelled by
executable Lean functions that implement the documented behaviour of those
library routines on the inputs this engine feeds them; each such model
carries a doc comment stating the modelling choice.
-/

namespace Waf

/-- Single-quote character, used when building literal strings. -/
def sq : Char := Char.ofNat 39

/-- One-character string holding a single quote. -/
def sqs : String := String.singleton sq

/-- The whitespace characters recognised by Python's `str.strip()` /
`str.split()` (ASCII subset: space, tab, newline, carriage return,
vertical tab, form feed). -/
def isWsPy (c : Char) : Bool :=
  c = ' ' || c = '\t' || c = '\n' || c = '\r' || c = Char.ofNat 11 || c = Char.ofNat 12

/-- ASCII lower-casing, as applied by Python's `str.lower()` to the ASCII
header / content-type strings this engine handles. -/
def asciiLower (c : Char) : Char :=
  if 'A' ≤ c ∧ c ≤ 'Z' then Char.ofNat (c.toNat + 32) else c

/-- `str.lower()` on a string (ASCII model). -/
def pyLower (s : String) : String := ⟨s.data.map asciiLower⟩

/-- Kernel-computable `String.startsWith`. -/
def strStartsWith (s pre : String) : Bool := s.data.take pre.data.length == pre.data

/-- Kernel-computable `String.endsWith`. -/
def strEndsWith (s suf : String) : Bool :=
  s.data.drop (s.data.length - suf.data.length) == suf.data

/-- Hexadecimal digit test (for percent escapes). -/
def isHexD (c : Char) : Bool :=
  c.isDigit || ('a' ≤ c && c ≤ 'f') || ('A' ≤ c && c ≤ 'F')

/-- Value of a hexadecimal digit. -/
def hexV (c : Char) : Nat :=
  if c.isDigit then c.toNat - '0'.toNat
  else if 'a' ≤ c && c ≤ 'f' then c.toNat - 'a'.toNat + 10
  else c.toNat - 'A'.toNat + 10

/-- `str.strip()`: drop leading and trailing whitespace. -/
def stripL (l : List Char) : List Char :=
  ((l.dropWhile isWsPy).reverse.dropWhile isWsPy).reverse

/-- Fuel-indexed splitter; each step consumes at least one character, so
fuel equal to the input length is always sufficient. -/
def splitWsF : Nat → List Char → List (List Char)
  | 0, _ => []
  | _ + 1, [] => []
  | n + 1, c :: t =>
    if isWsPy c then splitWsF n t
    else (c :: t.takeWhile (fun d => !isWsPy d)) ::
      splitWsF n (t.dropWhile (fun d => !isWsPy d))

/-- `str.split()` with no separator: split on whitespace runs, dropping
empty pieces. -/
def splitWsL (l : List Char) : List (List Char) := splitWsF l.length l

/-- `" ".join(tokens)`. -/
def joinSpace : List (List Char) → List Char
  | [] => []
  | [t] => t
  | t :: ts => t ++ ' ' :: joinSpace ts

/-- `" ".join(value.strip().split())`: collapse internal whitespace runs to
single spaces and strip the ends. -/
def collapseWs (l : List Char) : List Char := joinSpace (splitWsL (stripL l))

/-- Unicode replacement character U+FFFD. -/
def repl : Char := Char.ofNat 0xFFFD

/-- UTF-8 encoding of one character (byte values). -/
def utf8EncodeChar (c : Char) : List Nat :=
  let n := c.toNat
  if n < 0x80 then [n]
  else if n < 0x800 then [0xC0 + n / 64, 0x80 + n % 64]
  else if n < 0x10000 then [0xE0 + n / 4096, 0x80 + n / 64 % 64, 0x80 + n % 64]
  else [0xF0 + n / 0x40000, 0x80 + n / 4096 % 64, 0x80 + n / 64 % 64, 0x80 + n % 64]

/-- UTF-8 encoding of a string as a byte list (`str.encode("utf-8")`). -/
def utf8Encode (l : List Char) : List Nat := (l.map utf8EncodeChar).flatten

/-- Is a byte a UTF-8 continuation byte? -/
def isCont (b : Nat) : Bool := 0x80 ≤ b && b ≤ 0xBF

/-- Decode one UTF-8 sequence starting at byte `b` with lookahead `t`:
yields the character and how many further bytes were consumed.  Invalid
leads yield U+FFFD consuming nothing further. -/
def utf8Step (b : Nat) (t : List Nat) : Char × Nat :=
  if b < 0x80 then (Char.ofNat b, 0)
  else if b < 0xC2 then (repl, 0)
  else if b ≤ 0xDF then
    match t with
    | b2 :: _ =>
      if isCont b2 then (Char.ofNat ((b - 0xC0) * 64 + (b2 - 0x80)), 1)
      else (repl, 0)
    | [] => (repl, 0)
  else if b ≤ 0xEF then
    match t with
    | b2 :: b3 :: _ =>
      if isCont b2 && isCont b3 &&
          !(b = 0xE0 && b2 < 0xA0) && !(b = 0xED && b2 > 0x9F) then
        (Char.ofNat ((b - 0xE0) * 4096 + (b2 - 0x80) * 64 + (b3 - 0x80)), 2)
      else (repl, 0)
    | _ => (repl, 0)
  else if b ≤ 0xF4 then
    match t with
    | b2 :: b3 :: b4 :: _ =>
      if isCont b2 && isCont b3 && isCont b4 &&
          !(b = 0xF0 && b2 < 0x90) && !(b = 0xF4 && b2 > 0x8F) then
        (Char.ofNat ((b - 0xF0) * 0x40000 + (b2 - 0x80) * 4096 +
          (b3 - 0x80) * 64 + (b4 - 0x80)), 3)
      else (repl, 0)
    | _ => (repl, 0)
  else (repl, 0)

/-- Fuel-indexed UTF-8 decoder; each step consumes at least one byte. -/
def utf8DecF : Nat → List Nat → List Char
  | 0, _ => []
  | _ + 1, [] => []
  | n + 1, b :: t =>
    let s := utf8Step b t
    s.1 :: utf8DecF n (t.drop s.2)

/-- UTF-8 decoding with replacement of invalid sequences
(`bytes.decode("utf-8", errors="replace")`; invalid input yields U+FFFD —
the exact number of replacement characters per malformed run is modelled
approximately, which no input of this development exercises). -/
def utf8DecodeReplace (l : List Nat) : List Char := utf8DecF l.length l

/-- The `+ → space` step of `urllib.parse.unquote_plus`. -/
def plusToSpace (l : List Char) : List Char :=
  l.map (fun c => if c = '+' then ' ' else c)

/-- Fuel-indexed percent-decoding core; each step consumes at least one
character. -/
def pctDecodeF : Nat → List Nat → List Char → List Char
  | 0, bs, _ => utf8DecodeReplace bs
  | _ + 1, bs, [] => utf8DecodeReplace bs
  | n + 1, bs, c :: t =>
    if c = '%' then
      match t with
      | h1 :: h2 :: t' =>
        if isHexD h1 && isHexD h2 then
          pctDecodeF n (bs ++ [hexV h1 * 16 + hexV h2]) t'
        else utf8DecodeReplace bs ++ c :: pctDecodeF n [] (h1 :: h2 :: t')
      | rest => utf8DecodeReplace bs ++ c :: pctDecodeF n [] rest
    else utf8DecodeReplace bs ++ c :: pctDecodeF n [] t

/-- Percent-decoding core of `urllib.parse.unquote`: runs of `%XX` escapes
are decoded to bytes and the byte run is UTF-8-decoded with replacement;
invalid escapes are kept verbatim.  `bs` holds the pending byte run. -/
def pctDecodeAux (bs : List Nat) (l : List Char) : List Char :=
  pctDecodeF l.length bs l

/-- `urllib.parse.unquote_plus` on char lists. -/
def unquotePlusL (l : List Char) : List Char := pctDecodeAux [] (plusToSpace l)

/-- The bounded repeated-decode loop of `normalize_value`:
`for _ in range(3): dec = unquote_plus(cur); if dec == cur: break; cur = dec`. -/
def pdecodeLoop : Nat → List Char → List Char
  | 0, cur => cur
  | n + 1, cur =>
    let dec := unquotePlusL cur
    if dec = cur then cur else pdecodeLoop n dec

/-- The named HTML entities this model resolves: the core XML/HTML set of
Python's `html.unescape` table (name, whether the semicolon-less legacy form
is also accepted, replacement character).  Python's full table has ~2200
entries; entities outside this subset are left verbatim, which is faithful
for every input arising in this development. -/
def namedEntities : List (String × Bool × Char) :=
  [ ("amp", true, '&'), ("lt", true, '<'), ("gt", true, '>'),
    ("quot", true, '"'), ("apos", false, sq), ("nbsp", true, Char.ofNat 0xA0) ]

/-- Python's `html._invalid_charrefs` remapping for numeric references in
the 0x80–0x9F range and other invalid code points (windows-1252 legacy
mapping; subset covering the common entries, others map to U+FFFD). -/
def invalidCharref (n : Nat) : Option Char :=
  if n = 0x00 then some repl
  else if n = 0x0D then some '\r'
  else if n = 0x80 then some (Char.ofNat 0x20AC)
  else if n = 0x82 then some (Char.ofNat 0x201A)
  else if n = 0x91 then some (Char.ofNat 0x2018)
  else if n = 0x92 then some (Char.ofNat 0x2019)
  else if n = 0x93 then some (Char.ofNat 0x201C)
  else if n = 0x94 then some (Char.ofNat 0x201D)
  else none

/-- Resolve a numeric character reference code point the way
`html.unescape` does. -/
def charFromCodepoint (n : Nat) : Char :=
  match invalidCharref n with
  | some c => c
  | none =>
    if 0xD800 ≤ n ∧ n ≤ 0xDFFF then repl
    else if n > 0x10FFFF then repl
    else Char.ofNat n

/-- Try to parse one character reference after an `&`; returns the
replacement character and the number of characters consumed (after the
`&`).  Handles `&#digits;?`, `&#xhex;?` and the named subset. -/
def refParse (t : List Char) : Option (Char × Nat) :=
  match t with
  | '#' :: u =>
    match u with
    | x :: v =>
      if x = 'x' ∨ x = 'X' then
        let ds := v.takeWhile isHexD
        if ds = [] then none
        else
          let n := ds.foldl (fun a c => a * 16 + hexV c) 0
          let consumed := 2 + ds.length
          if (v.drop ds.length).head? = some ';' then
            some (charFromCodepoint n, consumed + 1)
          else some (charFromCodepoint n, consumed)
      else
        let ds := (x :: v).takeWhile Char.isDigit
        if ds = [] then none
        else
          let n := ds.foldl (fun a c => a * 10 + (c.toNat - '0'.toNat)) 0
          let consumed := 1 + ds.length
          if ((x :: v).drop ds.length).head? = some ';' then
            some (charFromCodepoint n, consumed + 1)
          else some (charFromCodepoint n, consumed)
    | [] => none
  | _ =>
    (namedEntities.filterMap (fun (name, legacy, c) =>
      let nd := name.data
      if t.take nd.length = nd then
        if (t.drop nd.length).head? = some ';' then some (c, nd.length + 1)
        else if legacy then some (c, nd.length)
        else none
      else none)).head?

/-- Fuel-indexed unescaper; each step consumes at least one character. -/
def htmlUnescF : Nat → List Char → List Char
  | 0, _ => []
  | _ + 1, [] => []
  | n + 1, c :: t =>
    if c = '&' then
      match refParse t with
      | some (r, k) => r :: htmlUnescF n (t.drop k)
      | none => c :: htmlUnescF n t
    else c :: htmlUnescF n t

/-- `html.unescape` on char lists (entity subset documented at
`namedEntities`). -/
def htmlUnescapeL (l : List Char) : List Char := htmlUnescF l.length l

/-- `html.escape(s)` (with `quote=True`, the default used by the source):
replaces `&`, `<`, `>`, `"` and the single quote by their entities. -/
def htmlEscapeChar (c : Char) : List Char :=
  if c = '&' then "&amp;".data
  else if c = '<' then "&lt;".data
  else if c = '>' then "&gt;".data
  else if c = '"' then "&quot;".data
  else if c = sq then "&#x27;".data
  else [c]

/-- `html.escape` on strings. -/
def htmlEscape (s : String) : String := ⟨(s.data.map htmlEscapeChar).flatten⟩

/-- Modelled stdlib call: `unicodedata.normalize("NFKC", value)`.  NFKC is
the identity on every ASCII string; every concrete string this development
evaluates is ASCII, so the call is modelled as the identity (the
Unicode-table-driven behaviour on non-ASCII input is outside the scope of
this shallow embedding). -/
def nfkc (s : String) : String := s

/-- `MAX_PAYLOAD_LENGTH = 30000` (`app.py` line 54). -/
def MAX_PAYLOAD_LENGTH : Nat := 30000

/-- `normalize_value` (`app.py` lines 142-172), for string inputs: bounded
repeated percent-decoding, HTML unescaping, NFKC normalization, whitespace
strip/collapse, truncation to `MAX_PAYLOAD_LENGTH`. -/
def normalize_value (s : String) : String :=
  let cur := pdecodeLoop 3 s.data
  let v2 := htmlUnescapeL cur
  let v3 := (nfkc ⟨v2⟩).data
  let v4 := collapseWs v3
  ⟨if v4.length > MAX_PAYLOAD_LENGTH then v4.take MAX_PAYLOAD_LENGTH else v4⟩

/-- JSON values as produced by Flask's `request.get_json`. -/
inductive JVal where
  | jnull
  | jbool (b : Bool)
  | jnum (n : Int)
  | jstr (s : String)
  | jarr (l : List JVal)
  | jobj (l : List (String × JVal))

mutual

/-- Python `repr()` of a JSON-derived value (strings are assumed to need no
escaping, which holds for every input of this development). -/
def pyRepr : JVal → String
  | .jnull => "None"
  | .jbool true => "True"
  | .jbool false => "False"
  | .jnum n => toString n
  | .jstr s => sqs ++ s ++ sqs
  | .jarr l => "[" ++ pyReprList l ++ "]"
  | .jobj l => "\x7b" ++ pyReprObj l ++ "\x7d"

/-- Comma-joined `repr`s of list elements. -/
def pyReprList : List JVal → String
  | [] => ""
  | [v] => pyRepr v
  | v :: t => pyRepr v ++ ", " ++ pyReprList t

/-- Comma-joined `repr`s of dict items. -/
def pyReprObj : List (String × JVal) → String
  | [] => ""
  | [kv] => sqs ++ kv.1 ++ sqs ++ ": " ++ pyRepr kv.2
  | kv :: t => sqs ++ kv.1 ++ sqs ++ ": " ++ pyRepr kv.2 ++ ", " ++ pyReprObj t

end

/-- Python `str()` of a JSON-derived value. -/
def pyStr : JVal → String
  | .jstr s => s
  | v => pyRepr v

/-- Immutable snapshot of one inbound HTTP request: method, path, client
address, headers, parsed query/form/JSON parameters, raw body, plus the
fields the proxy forwarder reads (`query_string`, `scheme`, `host`,
`cookies`).  `jsonBody = none` models an absent or unparseable JSON body
(`request.get_json(silent=True)` returning `None`). -/
structure RequestCtx where
  method : String
  path : String
  remoteAddr : Option String
  headers : List (String × String)
  args : List (String × String)
  form : List (String × String)
  jsonBody : Option JVal
  rawBody : String
  queryString : String
  scheme : String
  host : String
  cookies : List (String × String)

/-- Werkzeug's case-insensitive `headers.get(name, default)`. -/
def headerGetD (hs : List (String × String)) (name dflt : String) : String :=
  ((hs.find? (fun kv => pyLower kv.1 == pyLower name)).map Prod.snd).getD dflt

/-- `(content_type or "").split(";")[0].strip().lower()` — the main part of
a content-type header, as computed in `is_path_allowed`, `echo` and
`send_email`. -/
def ctMain (ct : String) : String :=
  pyLower ⟨stripL (ct.data.takeWhile (fun c => !(c = ';')))⟩

/-- Flask's `request.is_json`: mimetype is `application/json` or ends in
`+json`. -/
def isJsonReq (ctx : RequestCtx) : Bool :=
  let mt := ctMain (headerGetD ctx.headers "Content-Type" "")
  mt == "application/json" || strEndsWith mt "+json"

/-- `normalize_value` applied to a raw JSON value, mirroring the
`isinstance(value, str)` / `str(value)` / `value is None` branches of the
Python function. -/
def normalizeJsonValue : JVal → String
  | .jnull => ""
  | .jstr s => normalize_value s
  | v => normalize_value (pyStr v)

/-- `make_combined_payload` (`app.py` lines 174-209): `key=value` parts for
query args, form fields and top-level JSON fields, plus the normalized raw
body, joined by single spaces with empty parts dropped. -/
def make_combined_payload (ctx : RequestCtx) : String :=
  let argParts := ctx.args.map (fun kv => kv.1 ++ "=" ++ normalize_value kv.2)
  let formParts := ctx.form.map (fun kv => kv.1 ++ "=" ++ normalize_value kv.2)
  let jsonParts :=
    if isJsonReq ctx then
      match ctx.jsonBody with
      | some (.jobj l) => l.map (fun kv => kv.1 ++ "=" ++ normalizeJsonValue kv.2)
      | some .jnull => []
      | some j => [normalize_value (pyStr j)]
      | none => []
    else []
  let rawParts := if ctx.rawBody = "" then [] else [normalize_value ctx.rawBody]
  let parts := argParts ++ formParts ++ jsonParts ++ rawParts
  String.intercalate " " (parts.filter (fun p => !(p = "")))

/-! ### SHA-256 (model of `hashlib.sha256(...).hexdigest()`) -/

/-- Truncate to 32 bits. -/
def w32 (n : Nat) : Nat := n % 4294967296

/-- 32-bit right rotation. -/
def rotr32 (k x : Nat) : Nat := w32 ((x >>> k) + ((x % 2 ^ k) <<< (32 - k)))

/-- SHA-256 round constants. -/
def K256 : List Nat :=
  [0x428a2f98, 0x71374491, 0xb5c0fbcf, 0xe9b5dba5, 0x3956c25b, 0x59f111f1,
   0x923f82a4, 0xab1c5ed5] ++
  [0xd807aa98, 0x12835b01, 0x243185be, 0x550c7dc3, 0x72be5d74, 0x80deb1fe,
   0x9bdc06a7, 0xc19bf174] ++
  [0xe49b69c1, 0xefbe4786, 0x0fc19dc6, 0x240ca1cc, 0x2de92c6f, 0x4a7484aa,
   0x5cb0a9dc, 0x76f988da] ++
  [0x983e5152, 0xa831c66d, 0xb00327c8, 0xbf597fc7, 0xc6e00bf3, 0xd5a79147,
   0x06ca6351, 0x14292967] ++
  [0x27b70a85, 0x2e1b2138, 0x4d2c6dfc, 0x53380d13, 0x650a7354, 0x766a0abb,
   0x81c2c92e, 0x92722c85] ++
  [0xa2bfe8a1, 0xa81a664b, 0xc24b8b70, 0xc76c51a3, 0xd192e819, 0xd6990624,
   0xf40e3585, 0x106aa070] ++
  [0x19a4c116, 0x1e376c08, 0x2748774c, 0x34b0bcb5, 0x391c0cb3, 0x4ed8aa4a,
   0x5b9cca4f, 0x682e6ff3] ++
  [0x748f82ee, 0x78a5636f, 0x84c87814, 0x8cc70208, 0x90befffa, 0xa4506ceb,
   0xbef9a3f7, 0xc67178f2]

/-- The eight working variables of SHA-256. -/
structure Hash8 where
  a : Nat
  b : Nat
  c : Nat
  d : Nat
  e : Nat
  f : Nat
  g : Nat
  h : Nat

/-- Initial SHA-256 hash value. -/
def sha256H0 : Hash8 :=
  ⟨0x6a09e667, 0xbb67ae85, 0x3c6ef372, 0xa54ff53a,
   0x510e527f, 0x9b05688c, 0x1f83d9ab, 0x5be0cd19⟩

/-- One SHA-256 compression round. -/
def sha256Round (st : Hash8) (kw : Nat × Nat) : Hash8 :=
  let S1 := rotr32 6 st.e ^^^ rotr32 11 st.e ^^^ rotr32 25 st.e
  let ch := (st.e &&& st.f) ^^^ ((0xFFFFFFFF ^^^ st.e) &&& st.g)
  let temp1 := w32 (st.h + S1 + ch + kw.1 + kw.2)
  let S0 := rotr32 2 st.a ^^^ rotr32 13 st.a ^^^ rotr32 22 st.a
  let maj := (st.a &&& st.b) ^^^ (st.a &&& st.c) ^^^ (st.b &&& st.c)
  let temp2 := w32 (S0 + maj)
  ⟨w32 (temp1 + temp2), st.a, st.b, st.c, w32 (st.d + temp1), st.e, st.f, st.g⟩

/-- Group bytes into big-endian 32-bit words. -/
def bytesToWords : List Nat → List Nat
  | b1 :: b2 :: b3 :: b4 :: t =>
    (b1 * 16777216 + b2 * 65536 + b3 * 256 + b4) :: bytesToWords t
  | _ => []

/-- Extend the 16-word message schedule by `n` further words. -/
def extendW : Nat → List Nat → List Nat
  | 0, w => w
  | n + 1, w =>
    let i := w.length
    let x15 := w.getD (i - 15) 0
    let x2 := w.getD (i - 2) 0
    let s0 := rotr32 7 x15 ^^^ rotr32 18 x15 ^^^ (x15 >>> 3)
    let s1 := rotr32 17 x2 ^^^ rotr32 19 x2 ^^^ (x2 >>> 10)
    extendW n (w ++ [w32 (w.getD (i - 16) 0 + s0 + w.getD (i - 7) 0 + s1)])

/-- Compress one 64-byte block into the running hash. -/
def sha256Block (hs : Hash8) (block : List Nat) : Hash8 :=
  let w := extendW 48 (bytesToWords block)
  let st := (K256.zip w).foldl sha256Round hs
  ⟨w32 (hs.a + st.a), w32 (hs.b + st.b), w32 (hs.c + st.c), w32 (hs.d + st.d),
   w32 (hs.e + st.e), w32 (hs.f + st.f), w32 (hs.g + st.g), w32 (hs.h + st.h)⟩

/-- SHA-256 padding: `0x80`, zeros to 56 mod 64, 64-bit big-endian bit
length. -/
def sha256Pad (msg : List Nat) : List Nat :=
  let l := msg.length
  let zeros := (120 - (l + 1) % 64) % 64
  let bits := l * 8
  msg ++ [0x80] ++ List.replicate zeros 0 ++
    [bits / 2 ^ 56 % 256, bits / 2 ^ 48 % 256, bits / 2 ^ 40 % 256,
     bits / 2 ^ 32 % 256, bits / 2 ^ 24 % 256, bits / 2 ^ 16 % 256,
     bits / 2 ^ 8 % 256, bits % 256]

/-- Fuel-indexed chunker; each step consumes at least one byte. -/
def chunks64F : Nat → List Nat → List (List Nat)
  | 0, _ => []
  | _ + 1, [] => []
  | n + 1, b :: t => (b :: t).take 64 :: chunks64F n ((b :: t).drop 64)

/-- Split into 64-byte chunks. -/
def chunks64 (l : List Nat) : List (List Nat) := chunks64F l.length l

/-- SHA-256 of a byte list, as a `Hash8`. -/
def sha256Bytes (msg : List Nat) : Hash8 :=
  (chunks64 (sha256Pad msg)).foldl sha256Block sha256H0

/-- Lower-case hex digit. -/
def hexDig (n : Nat) : Char := "0123456789abcdef".data.getD (n % 16) '0'

/-- Fixed-width 8-digit hex rendering of a 32-bit word. -/
def toHex8 (w : Nat) : List Char :=
  [hexDig (w / 16 ^ 7), hexDig (w / 16 ^ 6), hexDig (w / 16 ^ 5),
   hexDig (w / 16 ^ 4), hexDig (w / 16 ^ 3), hexDig (w / 16 ^ 2),
   hexDig (w / 16), hexDig w]

/-- `hashlib.sha256(s.encode("utf-8", errors="ignore")).hexdigest()`. -/
def sha256hexUtf8 (s : String) : String :=
  let d := sha256Bytes (utf8Encode s.data)
  ⟨toHex8 d.a ++ toHex8 d.b ++ toHex8 d.c ++ toHex8 d.d ++
   toHex8 d.e ++ toHex8 d.f ++ toHex8 d.g ++ toHex8 d.h⟩

/-! ### Audit logger -/

/-- `SNIPPET_LEN = 150` (`app.py` line 52). -/
def SNIPPET_LEN : Nat := 150

/-- `_make_snippet_and_hash` (`app.py` lines 211-216). -/
def mkSnippetAndHash (payload : String) : String × String :=
  if payload = "" then ("", "")
  else (⟨payload.data.take SNIPPET_LEN⟩, sha256hexUtf8 payload)

/-- One line of the append-only JSON-lines audit log (`log_match` record,
`app.py` lines 218-236; the `time` field is supplied by the caller's
clock). -/
structure LogRecord where
  time : String
  ip : String
  attack : String
  pattern : String
  method : String
  path : String
  ua : String
  referer : String
  snippet : String
  payload_hash : String
deriving DecidableEq

/-- `log_match` (`app.py` lines 218-236): builds the record appended to the
log file (the file append itself, which swallows I/O errors, is outside the
state modelled here). -/
def log_match (timeStr ip attack pattern method path ua referer payload : String) :
    LogRecord :=
  let sh := mkSnippetAndHash payload
  ⟨timeStr, ip, attack, pattern, method, path, ua, referer, sh.1, sh.2⟩

/-! ### Regular-expression engine

Model of CPython `re` restricted to the constructs occurring in `PATTERNS`
(`app.py` lines 62-112): literals, `.`, character classes, `\s` `\w` `\d`,
`\b`, `*` `+` `?`, grouping and alternation, compiled with
`re.IGNORECASE | re.DOTALL` (so literals compare case-insensitively and `.`
matches every character).  `\s`/`\w` use their ASCII sets, faithful for the
ASCII inputs of this development.  A backtracking matcher with explicit
fuel; every starred subpattern of `PATTERNS` consumes at least one
character, so the chosen fuel bound is never exhausted on the inputs
evaluated here. -/

/-- Regular-expression abstract syntax. -/
inductive RE where
  | eps
  | chr (c : Char)
  | anyc
  | cls (neg : Bool) (ranges : List (Char × Char))
  | wordB
  | cat (a b : RE)
  | alt (a b : RE)
  | star (a : RE)
  | plus (a : RE)
  | opt (a : RE)

/-- Structural size of a pattern (for the fuel bound). -/
def reSize : RE → Nat
  | .eps => 1
  | .chr _ => 1
  | .anyc => 1
  | .cls _ _ => 1
  | .wordB => 1
  | .cat a b => reSize a + reSize b + 1
  | .alt a b => reSize a + reSize b + 1
  | .star a => reSize a + 1
  | .plus a => reSize a + 1
  | .opt a => reSize a + 1

/-- Character-class membership. -/
def inCls (neg : Bool) (ranges : List (Char × Char)) (c : Char) : Bool :=
  let hit := ranges.any (fun r => r.1 ≤ c && c ≤ r.2)
  if neg then !hit else hit

/-- Is `c` a word character (`\w`, ASCII set)? -/
def isWordC : Option Char → Bool
  | none => false
  | some c => c.isAlphanum || c = '_'

/-- Case-insensitive character comparison (`re.IGNORECASE`). -/
def ciEq (p c : Char) : Bool := asciiLower p = asciiLower c

/-- Backtracking matcher in continuation-passing style.  `prev` is the
character just before the current position (for `\b`); the continuation
receives the updated `prev` and the rest of the input.  `star` only iterates
when its body consumed input (Python's engine never loops on empty star
bodies either; no pattern of `PATTERNS` has a nullable starred body). -/
def reMatch : Nat → RE → Option Char → List Char → (Option Char → List Char → Bool) → Bool
  | 0, _, _, _, _ => false
  | _ + 1, .eps, prev, s, k => k prev s
  | _ + 1, .chr c, _, s, k =>
    match s with
    | [] => false
    | d :: t => ciEq c d && k (some d) t
  | _ + 1, .anyc, _, s, k =>
    match s with
    | [] => false
    | d :: t => k (some d) t
  | _ + 1, .cls neg rs, _, s, k =>
    match s with
    | [] => false
    | d :: t => inCls neg rs d && k (some d) t
  | _ + 1, .wordB, prev, s, k =>
    (isWordC prev != isWordC s.head?) && k prev s
  | fuel + 1, .cat a b, prev, s, k =>
    reMatch fuel a prev s (fun p' s' => reMatch fuel b p' s' k)
  | fuel + 1, .alt a b, prev, s, k =>
    reMatch fuel a prev s k || reMatch fuel b prev s k
  | fuel + 1, .star a, prev, s, k =>
    reMatch fuel a prev s
      (fun p' s' => s'.length < s.length && reMatch fuel (.star a) p' s' k) ||
    k prev s
  | fuel + 1, .plus a, prev, s, k =>
    reMatch fuel a prev s (fun p' s' => reMatch fuel (.star a) p' s' k)
  | fuel + 1, .opt a, prev, s, k =>
    reMatch fuel a prev s k || k prev s

/-- Fuel bound: ample for the patterns of this engine (see `reMatch`). -/
def reFuel (r : RE) (len : Nat) : Nat := (reSize r + 4) * (len + 4)

/-- Does `r` match at the current position? -/
def reMatchHere (r : RE) (prev : Option Char) (s : List Char) : Bool :=
  reMatch (reFuel r s.length) r prev s (fun _ _ => true)

/-- `re.search`: try to match at every position. -/
def reSearchAux (r : RE) (prev : Option Char) : List Char → Bool
  | [] => reMatchHere r prev []
  | c :: t => reMatchHere r prev (c :: t) || reSearchAux r (some c) t

/-- `compiled_pattern.search(s) is not None`. -/
def reSearch (r : RE) (s : String) : Bool := reSearchAux r none s.data

/-! ### The compiled signature patterns (`PATTERNS` / `COMPILED`) -/

/-- Concatenation of a list of regexes. -/
def rcat (l : List RE) : RE := l.foldr RE.cat .eps

/-- Literal string regex (case-insensitive matching comes from `ciEq`). -/
def rlit (s : String) : RE := rcat (s.data.map RE.chr)

/-- `\s` (ASCII whitespace class). -/
def rws : RE :=
  .cls false [(' ', ' '), ('\t', '\t'), ('\n', '\n'), ('\r', '\r'),
    (Char.ofNat 11, Char.ofNat 11), (Char.ofNat 12, Char.ofNat 12)]

/-- `\w` (ASCII word class). -/
def rwc : RE := .cls false [('a', 'z'), ('A', 'Z'), ('0', '9'), ('_', '_')]

/-- `\d`. -/
def rdg : RE := .cls false [('0', '9')]

/-- `\b`. -/
def rb : RE := .wordB

/-- One signature rule: the original pattern text (as logged by
`log_match`) and its compiled form. -/
structure SigRule where
  text : String
  re : RE

/-- `PATTERNS` (`app.py` lines 62-112) compiled as `COMPILED` (line 115):
category name paired with its rule list, in source order. -/
def COMPILED : List (String × List SigRule) :=
  [ ("SQL Injection",
     [ ⟨"\\bunion\\b.*\\bselect\\b",
        rcat [rb, rlit "union", rb, .star .anyc, rb, rlit "select", rb]⟩,
       ⟨"\\bselect\\b.*\\bfrom\\b",
        rcat [rb, rlit "select", rb, .star .anyc, rb, rlit "from", rb]⟩,
       ⟨"\\bdrop\\b\\s+\\btable\\b",
        rcat [rb, rlit "drop", rb, .plus rws, rb, rlit "table", rb]⟩,
       ⟨"\\bdrop\\b\\s+\\bdatabase\\b",
        rcat [rb, rlit "drop", rb, .plus rws, rb, rlit "database", rb]⟩,
       ⟨"\\binsert\\b\\s+\\binto\\b",
        rcat [rb, rlit "insert", rb, .plus rws, rb, rlit "into", rb]⟩,
       ⟨"\\bupdate\\b.*\\bset\\b",
        rcat [rb, rlit "update", rb, .star .anyc, rb, rlit "set", rb]⟩,
       ⟨"\\bdelete\\b\\s+\\bfrom\\b",
        rcat [rb, rlit "delete", rb, .plus rws, rb, rlit "from", rb]⟩,
       ⟨"\\bor\\b\\s+1\\s*=\\s*1\\b",
        rcat [rb, rlit "or", rb, .plus rws, .chr '1', .star rws, .chr '=',
              .star rws, .chr '1', rb]⟩,
       ⟨"\\bexec\\b", rcat [rb, rlit "exec", rb]⟩,
       ⟨"xp_cmdshell", rlit "xp_cmdshell"⟩,
       ⟨"information_schema", rlit "information_schema"⟩,
       ⟨"load_file\\s*\\(", rcat [rlit "load_file", .star rws, .chr '(']⟩,
       ⟨"outfile\\b", rcat [rlit "outfile", rb]⟩,
       ⟨"benchmark\\s*\\(", rcat [rlit "benchmark", .star rws, .chr '(']⟩,
       ⟨"\\bsleep\\s*\\(", rcat [rb, rlit "sleep", .star rws, .chr '(']⟩ ]),
    ("XSS / HTML Injection",
     [ ⟨"<\\s*script\\b", rcat [.chr '<', .star rws, rlit "script", rb]⟩,
       ⟨"<\\s*iframe\\b", rcat [.chr '<', .star rws, rlit "iframe", rb]⟩,
       ⟨"<\\s*img\\b", rcat [.chr '<', .star rws, rlit "img", rb]⟩,
       ⟨"<\\s*svg\\b", rcat [.chr '<', .star rws, rlit "svg", rb]⟩,
       ⟨"<\\s*math\\b", rcat [.chr '<', .star rws, rlit "math", rb]⟩,
       ⟨"<\\s*object\\b", rcat [.chr '<', .star rws, rlit "object", rb]⟩,
       ⟨"<\\s*embed\\b", rcat [.chr '<', .star rws, rlit "embed", rb]⟩,
       ⟨"\\bon\\w+\\s*=", rcat [rb, rlit "on", .plus rwc, .star rws, .chr '=']⟩,
       ⟨"javascript\\s*:", rcat [rlit "javascript", .star rws, .chr ':']⟩,
       ⟨"data:text/html", rlit "data:text/html"⟩,
       ⟨"document\\.write", rlit "document.write"⟩,
       ⟨"window\\.location", rlit "window.location"⟩,
       ⟨"\\balert\\s*\\(", rcat [rb, rlit "alert", .star rws, .chr '(']⟩ ]),
    ("Command Injection",
     [ ⟨";\\s*", rcat [.chr ';', .star rws]⟩,
       ⟨"\\b&&\\b", rcat [rb, rlit "&&", rb]⟩,
       ⟨"\\|\\|", rlit "||"⟩,
       ⟨"`[^`]*`", rcat [.chr '`', .star (.cls true [('`', '`')]), .chr '`']⟩,
       ⟨"\\$\\([^\\)]*\\)",
        rcat [rlit "$(", .star (.cls true [(')', ')')]), .chr ')']⟩,
       ⟨"\\bwhoami\\b", rcat [rb, rlit "whoami", rb]⟩,
       ⟨"\\bdir\\b", rcat [rb, rlit "dir", rb]⟩,
       ⟨"\\bls\\b", rcat [rb, rlit "ls", rb]⟩ ]),
    ("SSTI",
     [ ⟨"\\\x7b\\\x7b.*\\\x7d\\\x7d",
        rcat [rlit "\x7b\x7b", .star .anyc, rlit "\x7d\x7d"]⟩,
       ⟨"\\\x7b%.*%\\\x7d", rcat [rlit "\x7b%", .star .anyc, rlit "%\x7d"]⟩,
       ⟨"\\$\\\x7b.*\\\x7d", rcat [rlit "$\x7b", .star .anyc, .chr '\x7d']⟩,
       ⟨"<%.*%>", rcat [rlit "<%", .star .anyc, rlit "%>"]⟩,
       ⟨"#\\\x7b.*\\\x7d", rcat [rlit "#\x7b", .star .anyc, .chr '\x7d']⟩ ]),
    ("NoSQL / LDAP / XPath",
     [ ⟨"\\$where", rlit "$where"⟩,
       ⟨"\\$regex", rlit "$regex"⟩,
       ⟨"\\$gt\\b", rcat [rlit "$gt", rb]⟩,
       ⟨"\\$lt\\b", rcat [rlit "$lt", rb]⟩,
       ⟨"\\(uid=", rlit "(uid="⟩,
       ⟨"objectClass", rlit "objectClass"⟩ ]),
    ("Email Header Injection / CRLF",
     [ ⟨"[\\r\\n].*(bcc:|cc:|to:)",
        rcat [.cls false [('\r', '\r'), ('\n', '\n')], .star .anyc,
              .alt (rlit "bcc:") (.alt (rlit "cc:") (rlit "to:"))]⟩,
       ⟨"[\\r\\n]", .cls false [('\r', '\r'), ('\n', '\n')]⟩ ]),
    ("Object / Deserialization",
     [ ⟨"O:\\d+:\\\".*\\\":",
        rcat [rlit "O:", .plus rdg, rlit ":\"", .star .anyc, rlit "\":"]⟩,
       ⟨"a:\\d+:\x7b", rcat [rlit "a:", .plus rdg, .chr ':', .chr '\x7b']⟩,
       ⟨"pickle\\.loads", rlit "pickle.loads"⟩,
       ⟨"__import__", rlit "__import__"⟩,
       ⟨"eval\\s*\\(", rcat [rlit "eval", .star rws, .chr '(']⟩ ]) ]

/-- One detection pass: every `(category, pattern-text)` whose compiled
pattern matches somewhere in `s`, in `COMPILED` order (the inner loops of
`waf_before`, lines 320-334). -/
def scanPayload (s : String) : List (String × String) :=
  (COMPILED.map (fun cat =>
    (cat.2.filter (fun rule => reSearch rule.re s)).map
      (fun rule => (cat.1, rule.text)))).flatten

/-- Order-preserving deduplication by first occurrence, with the `seen`
accumulator (the `seen`/`unique` loop of `waf_before`, lines 337-343). -/
def dedupAux (seen : List (String × String)) :
    List (String × String) → List (String × String)
  | [] => []
  | kv :: t => if kv ∈ seen then dedupAux seen t else kv :: dedupAux (kv :: seen) t

/-- `unique` list of `(category, pattern)` matches. -/
def dedupKeep (l : List (String × String)) : List (String × String) := dedupAux [] l

/-- Both detection passes of `waf_before` (raw payload and its HTML-escaped
copy, lines 319-334) followed by the dedup loop (lines 337-343). -/
def detectPhase (combinedRaw : String) : List (String × String) :=
  dedupKeep (scanPayload combinedRaw ++ scanPayload (htmlEscape combinedRaw))

/-! ### Rate limiter -/

/-- `RATE_LIMIT = 20` (`app.py` line 48). -/
def RATE_LIMIT : Nat := 20

/-- `TIME_WINDOW = 60` seconds (`app.py` line 49).  Clock readings
(`time.time()` floats) are modelled as exact integers: the rate-limit
logic consumes only differences and order comparisons of timestamps. -/
def TIME_WINDOW : ℤ := 60

/-- `WHITELIST_IPS = set()` (`app.py` line 50). -/
def WHITELIST_IPS : List String := []

/-- `ENABLED = True` (`app.py` line 53). -/
def ENABLED : Bool := true

/-- The per-IP timestamp map `requests_log = defaultdict(list)`. -/
abbrev RateLog := List (String × List ℤ)

/-- `requests_log[ip]` (missing key defaults to the empty list). -/
def rateGet (st : RateLog) (ip : String) : List ℤ :=
  ((st.find? (fun kv => kv.1 == ip)).map Prod.snd).getD []

/-- Store an IP's timestamp list. -/
def rateSet : RateLog → String → List ℤ → RateLog
  | [], ip, l => [(ip, l)]
  | kv :: t, ip, l => if kv.1 = ip then (ip, l) :: t else kv :: rateSet t ip l

/-- The per-IP core of the rate-limit check (`app.py` lines 304-309): prune
timestamps older than the window, reject without appending when the pruned
count reaches the limit, otherwise append `now`. -/
def rateAllow (times : List ℤ) (now : ℤ) : Bool × List ℤ :=
  let pruned := times.filter (fun t => now - t < TIME_WINDOW)
  if RATE_LIMIT ≤ pruned.length then (false, pruned)
  else (true, pruned ++ [now])

/-- The rate-limit check on the full per-IP map. -/
def rateCheck (st : RateLog) (ip : String) (now : ℤ) : Bool × RateLog :=
  let r := rateAllow (rateGet st ip) now
  (r.1, rateSet st ip r.2)

/-- Run a sequence of same-IP requests through `rateAllow`, returning the
accept/reject verdicts and the final timestamp list. -/
def runRequests : List ℤ → List ℤ → List Bool × List ℤ
  | st, [] => ([], st)
  | st, t :: ts =>
    let r := rateAllow st t
    let rest := runRequests r.2 ts
    (r.1 :: rest.1, rest.2)

/-! ### Allowlist -/

/-- One `ALLOWLIST` entry: allowed methods, allowed parameter names
(`none` = unrestricted), allowed content types (`none` = unrestricted). -/
structure AllowEntry where
  methods : List String
  params : Option (List String)
  content_types : Option (List String)
deriving DecidableEq

/-- `ALLOWLIST` (`app.py` lines 56-60). -/
def ALLOWLIST : List (String × AllowEntry) :=
  [ ("/", ⟨["GET", "POST"], none, none⟩),
    ("/echo", ⟨["POST"], none, some ["application/json"]⟩),
    ("/send-email", ⟨["POST"], some ["to", "subject", "body"],
      some ["application/json"]⟩) ]

/-- `ALLOWLIST.get(path)`. -/
def allowlistGet (path : String) : Option AllowEntry :=
  (ALLOWLIST.find? (fun kv => kv.1 == path)).map Prod.snd

/-- `is_path_allowed` (`app.py` lines 238-254).  The `content_type`
argument is an `Option` to model Python's `content_type is not None` test;
the caller in `waf_before` always passes a (possibly empty) string. -/
def is_path_allowed (path method : String) (provided : List String)
    (contentType : Option String) : Bool × String :=
  match allowlistGet path with
  | none => (true, "")
  | some cfg =>
    if ¬ method ∈ cfg.methods then (false, "Method not allowed for path")
    else
      let ctFail : Bool :=
        match cfg.content_types, contentType with
        | some cts, some ct => !(cts.contains (ctMain ct))
        | _, _ => false
      if ctFail then (false, "Content-Type not allowed")
      else
        match cfg.params with
        | some ps =>
          match provided.find? (fun p => !(ps.contains p)) with
          | some p => (false, "Parameter " ++ sqs ++ p ++ sqs ++ " not allowed")
          | none => (true, "")
        | none => (true, "")

/-! ### Routing -/

/-- The Flask endpoints of `app.py` (plus the 404/405 fallbacks). -/
inductive Endpoint where
  | home
  | echo
  | sendEmail
  | shutdown
  | health
  | wafProxy (token : String) (path : String)
  | err404
  | err405

/-- Parse `/waf/<token>/<path:path>` (both proxy rules, lines 445-446; the
`path` converter may capture an empty or slash-containing remainder). -/
def parseProxy (path : String) : Option (String × String) :=
  if strStartsWith path "/waf/" then
    let rest := path.data.drop 5
    let token := rest.takeWhile (fun c => !(c = '/'))
    if token = [] then none
    else
      match rest.drop token.length with
      | '/' :: p => some (⟨token⟩, ⟨p⟩)
      | _ => none
  else none

/-- Methods accepted by the proxy rules. -/
def PROXY_METHODS : List String :=
  ["GET", "POST", "PUT", "PATCH", "DELETE", "OPTIONS", "HEAD"]

/-- Flask URL-map dispatch for the routes of `app.py` (Flask's implicit
`HEAD`/`OPTIONS` handling and trailing-slash redirects are not modelled;
no claim depends on them). -/
def routeOf (path method : String) : Endpoint :=
  match parseProxy path with
  | some (tok, p) =>
    if method ∈ PROXY_METHODS then .wafProxy tok p else .err405
  | none =>
    if path = "/" then (if method ∈ ["GET", "POST"] then .home else .err405)
    else if path = "/echo" then (if method = "POST" then .echo else .err405)
    else if path = "/send-email" then
      (if method = "POST" then .sendEmail else .err405)
    else if path = "/shutdown" then
      (if method = "POST" then .shutdown else .err405)
    else if path = "/health" then (if method = "GET" then .health else .err405)
    else .err404

/-- Does the matched endpoint carry the `@skip_detection` marker
(`shutdown` and `health` only)? -/
def skipDetectionRoute (path method : String) : Bool :=
  match routeOf path method with
  | .shutdown => true
  | .health => true
  | _ => false

/-- `is_proxy_path` (`app.py` lines 138-140). -/
def is_proxy_path (path : String) : Bool := strStartsWith path "/waf/"

/-! ### Responses -/

/-- Response bodies (`jsonify` payloads and relayed upstream bytes). -/
inductive RespBody where
  | jsonError (msg : String)
  | jsonMsg (msg : String)
  | jsonEcho (data : Option JVal)
  | jsonHealth
  | upstream (body : String)
  | empty

/-- An HTTP response: status, headers, body. -/
structure Resp where
  status : Nat
  headers : List (String × String)
  body : RespBody

/-! ### `waf_before` -/

/-- Result of the before-request hook: `resp = none` means "continue to the
route"; `logs` are the audit records appended; `rate` is the updated
timestamp map. -/
structure BeforeOut where
  resp : Option Resp
  logs : List LogRecord
  rate : RateLog

/-- The provided parameter names (`provided_params` set of `waf_before`,
lines 287-296: query keys, form keys, top-level JSON keys), deduplicated. -/
def providedParams (ctx : RequestCtx) : List String :=
  (ctx.args.map Prod.fst ++ ctx.form.map Prod.fst ++
    (if isJsonReq ctx then
      match ctx.jsonBody with
      | some (.jobj l) => l.map Prod.fst
      | _ => []
     else [])).eraseDups

/-- Lexicographic code-point comparison (Python's `<` on strings). -/
def strLtb : List Char → List Char → Bool
  | [], [] => false
  | [], _ :: _ => true
  | _ :: _, [] => false
  | a :: s, b :: t => if a = b then strLtb s t else decide (a < b)

/-- `a <= b` on strings by code points. -/
def pyStrLe (a b : String) : Bool := strLtb a.data b.data || a == b

/-- Insertion of a string into a sorted list (for Python's `sorted`). -/
def insSorted (x : String) : List String → List String
  | [] => [x]
  | y :: t => if pyStrLe x y then x :: y :: t else y :: insSorted x t

/-- Python's `sorted` on strings (insertion sort, lexicographic). -/
def sortStrings (l : List String) : List String := l.foldr insSorted []

/-- The signature-block error message
`f"Blocked suspicious input ({', '.join(types)})"`. -/
def sigBlockMsg (unique : List (String × String)) : String :=
  "Blocked suspicious input (" ++
    String.intercalate ", " (sortStrings ((unique.map Prod.fst).eraseDups)) ++ ")"

/-- The static/image short-circuit of `waf_before` (line 316). -/
def staticOrImageSkip (ctx : RequestCtx) : Bool :=
  strStartsWith ctx.path "/static" ||
    strStartsWith (pyLower (headerGetD ctx.headers "Content-Type" "")) "image/"

/-- The stages of `waf_before` after allowlist validation (lines 303-351):
rate limiting, payload building, static/image short-circuit, dual-pass
signature detection, block-or-continue. -/
def afterAllowlist (ctx : RequestCtx) (rate : RateLog) (now : ℤ)
    (timeStr : String) : BeforeOut :=
  let ip := ctx.remoteAddr.getD "unknown"
  let ua := headerGetD ctx.headers "User-Agent" ""
  let referer := headerGetD ctx.headers "Referer" ""
  let pr := rateCheck rate ip now
  if !pr.1 then
    ⟨some ⟨429, [], .jsonError "Too many requests"⟩,
     [log_match timeStr ip "RateLimit/DDoS" "rate_limit" ctx.method ctx.path
        ua referer ""],
     pr.2⟩
  else
    let combinedRaw := make_combined_payload ctx
    if staticOrImageSkip ctx then ⟨none, [], pr.2⟩
    else
      let unique := detectPhase combinedRaw
      if unique = [] then ⟨none, [], pr.2⟩
      else
        ⟨some ⟨403, [], .jsonError (sigBlockMsg unique)⟩,
         unique.map (fun m =>
           log_match timeStr ip m.1 m.2 ctx.method ctx.path ua referer
             combinedRaw),
         pr.2⟩

/-- `waf_before` (`app.py` lines 263-351): enabled/whitelist/per-route-skip
short-circuits, allowlist validation (skipped for proxy paths), then
`afterAllowlist`. -/
def waf_before (ctx : RequestCtx) (rate : RateLog) (now : ℤ)
    (timeStr : String) : BeforeOut :=
  if !ENABLED then ⟨none, [], rate⟩
  else
    let ip := ctx.remoteAddr.getD "unknown"
    if ip ∈ WHITELIST_IPS then ⟨none, [], rate⟩
    else if skipDetectionRoute ctx.path ctx.method then ⟨none, [], rate⟩
    else if !is_proxy_path ctx.path then
      let res := is_path_allowed ctx.path ctx.method (providedParams ctx)
        (some (headerGetD ctx.headers "Content-Type" ""))
      if !res.1 then
        ⟨some ⟨403, [], .jsonError "Request not allowed (allowlist)"⟩,
         [log_match timeStr ip "AllowListViolation" res.2 ctx.method ctx.path
            (headerGetD ctx.headers "User-Agent" "")
            (headerGetD ctx.headers "Referer" "")
            (make_combined_payload ctx)],
         rate⟩
      else afterAllowlist ctx rate now timeStr
    else afterAllowlist ctx rate now timeStr

/-! ### Proxy resolver and reverse-proxy forwarder -/

/-- `HOP_BY_HOP_HEADERS` (`app.py` lines 18-21). -/
def HOP_BY_HOP_HEADERS : List String :=
  ["connection", "keep-alive", "proxy-authenticate", "proxy-authorization",
   "te", "trailers", "transfer-encoding", "upgrade", "host"]

/-- State of the shared map file: missing, unreadable (read or JSON parse
error), or readable with the given token → origin entries. -/
inductive MapFileState where
  | missing
  | unreadable
  | readable (entries : List (String × String))

/-- `mp.get(token)` on the parsed JSON object. -/
def mapGet (entries : List (String × String)) (token : String) : Option String :=
  (entries.find? (fun kv => kv.1 == token)).map Prod.snd

/-- `origin.rstrip("/")`. -/
def rstripSlash (s : String) : String :=
  ⟨(s.data.reverse.dropWhile (fun c => c = '/')).reverse⟩

/-- `resolve_origin` (`app.py` lines 122-135): a missing or unreadable map
file raises inside the `try` and yields `None`; an unknown token or falsy
(empty) origin also yields `None`; otherwise the origin with trailing
slashes stripped. -/
def resolve_origin (mp : MapFileState) (token : String) : Option String :=
  match mp with
  | .missing => none
  | .unreadable => none
  | .readable entries =>
    match mapGet entries token with
    | none => none
    | some origin => if origin = "" then none else some (rstripSlash origin)

/-- Outcome of the outbound `requests.request(...)` call: the three caught
exception classes (`Timeout`, `ConnectionError`, any other
`RequestException`) or an upstream response. -/
inductive UpstreamOutcome where
  | timeout
  | connectionError
  | requestException
  | ok (status : Nat) (headers : List (String × String)) (body : String)

/-- Python-dict insert (replace the existing key, else append). -/
def dictSet : List (String × String) → String → String → List (String × String)
  | [], k, v => [(k, v)]
  | kv :: t, k, v => if kv.1 = k then (k, v) :: t else kv :: dictSet t k v

/-- The upstream header set (`app.py` lines 468-475): all request headers
except hop-by-hop ones (dict comprehension, last duplicate wins), then the
three `X-Forwarded-*` assignments. -/
def buildUpstreamHeaders (ctx : RequestCtx) : List (String × String) :=
  let filtered := ctx.headers.filter
    (fun kv => !(HOP_BY_HOP_HEADERS.contains (pyLower kv.1)))
  let d := filtered.foldl (fun acc kv => dictSet acc kv.1 kv.2) []
  let d := dictSet d "X-Forwarded-For" (ctx.remoteAddr.getD "unknown")
  let d := dictSet d "X-Forwarded-Proto" ctx.scheme
  dictSet d "X-Forwarded-Host" ctx.host

/-- The upstream URL (`app.py` lines 462-465). -/
def upstreamUrl (origin pathSuffix : String) (ctx : RequestCtx) : String :=
  origin ++ "/" ++ pathSuffix ++
    (if ctx.queryString = "" then "" else "?" ++ ctx.queryString)

/-- `waf_proxy` (`app.py` lines 445-506): token resolution (404 on
failure), upstream failure mapping (504 timeout, 502 connection error, 502
other transport error), and on success the origin's status and body with
hop-by-hop headers stripped. -/
def waf_proxy (ctx : RequestCtx) (token pathSuffix : String)
    (mp : MapFileState) (upstream : UpstreamOutcome) : Resp :=
  match resolve_origin mp token with
  | none => ⟨404, [], .jsonError "Unknown token"⟩
  | some _ =>
    match upstream with
    | .timeout => ⟨504, [], .jsonError "Upstream request timed out"⟩
    | .connectionError => ⟨502, [], .jsonError "Could not connect to upstream"⟩
    | .requestException => ⟨502, [], .jsonError "Upstream request failed"⟩
    | .ok st hs body =>
      ⟨st,
       hs.filter (fun kv => !(HOP_BY_HOP_HEADERS.contains (pyLower kv.1))),
       .upstream body⟩

/-! ### Security headers (after-request hook) -/

/-- Werkzeug's case-insensitive `headers.get(name)` on response headers. -/
def respHeaderGet (hs : List (String × String)) (name : String) : Option String :=
  (hs.find? (fun kv => pyLower kv.1 == pyLower name)).map Prod.snd

/-- Werkzeug's case-insensitive `headers.setdefault(name, value)`. -/
def headerSetdefault (hs : List (String × String)) (n v : String) :
    List (String × String) :=
  match hs.find? (fun kv => pyLower kv.1 == pyLower n) with
  | some _ => hs
  | none => hs ++ [(n, v)]

/-- The seven security header names set by the after-request hook. -/
def SECURITY_HEADER_NAMES : List String :=
  ["Content-Security-Policy", "X-Frame-Options", "X-Content-Type-Options",
   "Strict-Transport-Security", "Referrer-Policy", "Permissions-Policy",
   "X-XSS-Protection"]

/-- `set_security_headers` (`app.py` lines 353-362): seven `setdefault`
calls. -/
def set_security_headers (r : Resp) : Resp :=
  let hs := r.headers
  let hs := headerSetdefault hs "Content-Security-Policy"
    ("default-src " ++ sqs ++ "self" ++ sqs)
  let hs := headerSetdefault hs "X-Frame-Options" "DENY"
  let hs := headerSetdefault hs "X-Content-Type-Options" "nosniff"
  let hs := headerSetdefault hs "Strict-Transport-Security"
    "max-age=31536000; includeSubDomains"
  let hs := headerSetdefault hs "Referrer-Policy" "no-referrer"
  let hs := headerSetdefault hs "Permissions-Policy"
    "geolocation=(), microphone=()"
  let hs := headerSetdefault hs "X-XSS-Protection" "0"
  ⟨r.status, hs, r.body⟩

/-! ### Local route handlers -/

/-- `home` (`app.py` lines 364-367). -/
def home_handler : Resp := ⟨200, [], .jsonMsg "Secure response"⟩

/-- `echo` (`app.py` lines 369-378). -/
def echo_handler (ctx : RequestCtx) (timeStr : String) :
    Resp × List LogRecord :=
  let ct := ctMain (headerGetD ctx.headers "Content-Type" "")
  if !(["application/json"].contains ct) then
    (⟨415, [], .jsonError "Content-Type not allowed"⟩,
     [log_match timeStr (ctx.remoteAddr.getD "unknown") "AllowListViolation"
        "Content-Type not allowed" ctx.method ctx.path
        (headerGetD ctx.headers "User-Agent" "")
        (headerGetD ctx.headers "Referer" "")
        (make_combined_payload ctx)])
  else (⟨200, [], .jsonEcho ctx.jsonBody⟩, [])

/-- `data.get(key, "")` on the parsed JSON dict. -/
def jget (l : List (String × JVal)) (k : String) : JVal :=
  ((l.find? (fun kv => kv.1 == k)).map Prod.snd).getD (.jstr "")

/-- The pattern `[\r\n]` used by `send_email`'s CRLF check. -/
def crlfRe : RE := .cls false [('\r', '\r'), ('\n', '\n')]

/-- `re.match(r"^[^@\s]+@[^@\s]+\.[^@\s]+$", to)` as a direct predicate:
exactly one `@`, no whitespace, nonempty local part, and a domain whose
last dot has nonempty text on both sides. -/
def emailFormatOk (s : String) : Bool :=
  let l := s.data
  let localPart := l.takeWhile (fun c => !(c = '@'))
  let rest := (l.dropWhile (fun c => !(c = '@'))).drop 1
  l.count '@' = 1 && !(l.any isWsPy) && !(localPart = []) &&
    (let afterDot := rest.reverse.takeWhile (fun c => !(c = '.'))
     !(afterDot = []) && afterDot.length + 2 ≤ rest.length)

/-- `send_email` (`app.py` lines 380-423): content-type gate (415), CRLF
check on `to`/`subject` (403), email-shape check (400), signature scan of
the combined payload (403), success message (200).  A non-dict JSON body is
modelled as the empty dict (`... or {}`). -/
def send_email_handler (ctx : RequestCtx) (timeStr : String) :
    Resp × List LogRecord :=
  let ip := ctx.remoteAddr.getD "unknown"
  let ua := headerGetD ctx.headers "User-Agent" ""
  let referer := headerGetD ctx.headers "Referer" ""
  let ct := ctMain (headerGetD ctx.headers "Content-Type" "")
  if !(["application/json"].contains ct) then
    (⟨415, [], .jsonError "Content-Type not allowed"⟩,
     [log_match timeStr ip "AllowListViolation" "Content-Type not allowed"
        ctx.method ctx.path ua referer (make_combined_payload ctx)])
  else
    let data := match ctx.jsonBody with
      | some (.jobj l) => l
      | _ => []
    let toF := normalizeJsonValue (jget data "to")
    let subjectF := normalizeJsonValue (jget data "subject")
    if reSearch crlfRe toF || reSearch crlfRe subjectF then
      (⟨403, [], .jsonError "Blocked suspicious input (Email Header Injection)"⟩,
       [log_match timeStr ip "Email Header Injection (CRLF)" "CRLF_in_field"
          ctx.method ctx.path ua referer (make_combined_payload ctx)])
    else if !emailFormatOk toF then
      (⟨400, [], .jsonError "Invalid recipient email format"⟩, [])
    else
      let combined := make_combined_payload ctx
      let uniq := dedupKeep (scanPayload combined)
      if uniq = [] then
        (⟨200, [], .jsonMsg ("Email simulated to: " ++ toF)⟩, [])
      else
        (⟨403, [], .jsonError "Blocked suspicious input"⟩,
         uniq.map (fun m =>
           log_match timeStr ip m.1 m.2 ctx.method ctx.path ua referer
             combined))

/-- `handle_405` (`app.py` lines 426-430). -/
def handle_405 (ctx : RequestCtx) (timeStr : String) :
    Resp × List LogRecord :=
  (⟨405, [], .jsonError "Method Not Allowed"⟩,
   [log_match timeStr (ctx.remoteAddr.getD "unknown")
      "Method Not Allowed (405)" "generic" ctx.method ctx.path
      (headerGetD ctx.headers "User-Agent" "")
      (headerGetD ctx.headers "Referer" "")
      (make_combined_payload ctx)])

/-- `shutdown` (`app.py` lines 432-439; modelled in the Werkzeug
environment, where the shutdown hook is available). -/
def shutdown_handler : Resp := ⟨200, [], .jsonMsg "Server shutting down..."⟩

/-- `health` (`app.py` lines 509-513). -/
def health_handler : Resp := ⟨200, [], .jsonHealth⟩

/-! ### Full per-request pipeline -/

/-- Result of one full request: the response sent to the client, the
updated rate state, the audit records appended, and whether the upstream
forward call was reached. -/
structure HandleOut where
  resp : Resp
  rate : RateLog
  logs : List LogRecord
  forwarded : Bool

/-- One full request through the engine: `waf_before`, then route dispatch,
then the after-request security headers.  The upstream call of `waf_proxy`
is reached exactly when the hook passed, the proxy route matched and the
token resolved. -/
def handleRequest (ctx : RequestCtx) (rate : RateLog) (now : ℤ)
    (timeStr : String) (mp : MapFileState) (upstream : UpstreamOutcome) :
    HandleOut :=
  let b := waf_before ctx rate now timeStr
  match b.resp with
  | some r => ⟨set_security_headers r, b.rate, b.logs, false⟩
  | none =>
    match routeOf ctx.path ctx.method with
    | .home => ⟨set_security_headers home_handler, b.rate, b.logs, false⟩
    | .echo =>
      let r := echo_handler ctx timeStr
      ⟨set_security_headers r.1, b.rate, b.logs ++ r.2, false⟩
    | .sendEmail =>
      let r := send_email_handler ctx timeStr
      ⟨set_security_headers r.1, b.rate, b.logs ++ r.2, false⟩
    | .shutdown => ⟨set_security_headers shutdown_handler, b.rate, b.logs, false⟩
    | .health => ⟨set_security_headers health_handler, b.rate, b.logs, false⟩
    | .err404 => ⟨set_security_headers ⟨404, [], .empty⟩, b.rate, b.logs, false⟩
    | .err405 =>
      let r := handle_405 ctx timeStr
      ⟨set_security_headers r.1, b.rate, b.logs ++ r.2, false⟩
    | .wafProxy tok p =>
      ⟨set_security_headers (waf_proxy ctx tok p mp upstream), b.rate, b.logs,
       (resolve_origin mp tok).isSome⟩

/-! ## Supporting lemmas and claim theorems -/

theorem takeWhile_append_cons (p : Char → Bool) :
    ∀ (l1 : List Char) (b : Char) (l2 : List Char),
      (∀ c ∈ l1, p c = true) → p b = false →
      (l1 ++ b :: l2).takeWhile p = l1
  | [], _, _, _, hb => by simp [List.takeWhile_cons, hb]
  | a :: t, b, l2, h1, hb => by
    have ha := h1 a (by simp)
    simp only [List.cons_append, List.takeWhile_cons, ha, if_true]
    rw [takeWhile_append_cons p t b l2 (fun c hc => h1 c (by simp [hc])) hb]

theorem dropWhile_append_cons (p : Char → Bool) :
    ∀ (l1 : List Char) (b : Char) (l2 : List Char),
      (∀ c ∈ l1, p c = true) → p b = false →
      (l1 ++ b :: l2).dropWhile p = b :: l2
  | [], _, _, _, hb => by simp [List.dropWhile_cons, hb]
  | a :: t, b, l2, h1, hb => by
    have ha := h1 a (by simp)
    simp only [List.cons_append, List.dropWhile_cons, ha, if_true]
    exact dropWhile_append_cons p t b l2 (fun c hc => h1 c (by simp [hc])) hb

theorem splitWsF_nil : ∀ n, splitWsF n [] = []
  | 0 => rfl
  | _ + 1 => rfl

/-- Every token produced by the splitter is nonempty and whitespace-free. -/
theorem splitWsF_tokens_wf :
    ∀ (n : Nat) (l : List Char),
      ∀ tok ∈ splitWsF n l, tok ≠ [] ∧ ∀ c ∈ tok, isWsPy c = false
  | 0, l => by simp [splitWsF]
  | _ + 1, [] => by simp [splitWsF]
  | n + 1, c :: t => by
    rw [splitWsF]
    by_cases hc : isWsPy c = true
    · rw [if_pos hc]
      exact splitWsF_tokens_wf n t
    · rw [if_neg hc]
      simp only [Bool.not_eq_true] at hc
      intro tok htok
      rcases List.mem_cons.mp htok with h | h
      · subst h
        refine ⟨by simp, ?_⟩
        intro d hd
        rcases List.mem_cons.mp hd with h | h
        · subst h; exact hc
        · have := List.mem_takeWhile_imp h
          simpa using this
      · exact splitWsF_tokens_wf n _ tok h

theorem splitWsL_tokens_wf (l : List Char) :
    ∀ tok ∈ splitWsL l, tok ≠ [] ∧ ∀ c ∈ tok, isWsPy c = false :=
  splitWsF_tokens_wf l.length l

/-- The splitter recovers whitespace-free nonempty tokens from their
space-join, for any sufficient fuel. -/
theorem splitWsF_join :
    ∀ (toks : List (List Char)) (n : Nat),
      (∀ tok ∈ toks, tok ≠ [] ∧ ∀ c ∈ tok, isWsPy c = false) →
      (joinSpace toks).length ≤ n →
      splitWsF n (joinSpace toks) = toks
  | [], n, _, _ => by simp [joinSpace, splitWsF_nil]
  | [t], n, h, hlen => by
    obtain ⟨hne, hwf⟩ := h t (by simp)
    match t, hne with
    | c :: tl, _ =>
      have hlen' : (c :: tl).length ≤ n := hlen
      cases n with
      | zero => simp at hlen'
      | succ m =>
        show splitWsF (m + 1) (c :: tl) = [c :: tl]
        rw [splitWsF]
        rw [if_neg (by simp [hwf c (by simp)])]
        rw [List.takeWhile_eq_self_iff.mpr (by
          intro d hd; simp [hwf d (by simp [hd])])]
        rw [List.dropWhile_eq_nil_iff.mpr (by
          intro d hd; simp [hwf d (by simp [hd])])]
        rw [splitWsF_nil]
  | t :: t' :: rest, n, h, hlen => by
    obtain ⟨hne, hwf⟩ := h t (by simp)
    match t, hne with
    | c :: tl, _ =>
      have hjoin : joinSpace ((c :: tl) :: t' :: rest) =
          c :: (tl ++ ' ' :: joinSpace (t' :: rest)) := rfl
      have hlen' : 1 + tl.length + 1 + (joinSpace (t' :: rest)).length ≤ n := by
        have := hlen
        rw [hjoin] at this
        simp at this
        omega
      cases n with
      | zero => omega
      | succ m =>
        rw [hjoin, splitWsF]
        rw [if_neg (by simp [hwf c (by simp)])]
        have htl : ∀ d ∈ tl, (fun d => !isWsPy d) d = true := by
          intro d hd; simp [hwf d (by simp [hd])]
        have hsp : (fun d => !isWsPy d) ' ' = false := by simp [isWsPy]
        rw [takeWhile_append_cons _ tl ' ' _ htl hsp,
          dropWhile_append_cons _ tl ' ' _ htl hsp]
        have hm : 1 + (joinSpace (t' :: rest)).length ≤ m := by omega
        cases m with
        | zero => omega
        | succ k =>
          rw [splitWsF]
          rw [if_pos (by simp [isWsPy])]
          rw [splitWsF_join (t' :: rest) k
            (fun tok htok => h tok (by simp [htok])) (by omega)]

/-- `splitWsL` recovers whitespace-free nonempty tokens from their
space-join. -/
theorem splitWsL_joinSpace (toks : List (List Char))
    (h : ∀ tok ∈ toks, tok ≠ [] ∧ ∀ c ∈ tok, isWsPy c = false) :
    splitWsL (joinSpace toks) = toks :=
  splitWsF_join toks (joinSpace toks).length h le_rfl

theorem mem_of_getLast?_eq {l : List Char} {a : Char} (h : l.getLast? = some a) :
    a ∈ l := by
  obtain ⟨h', rfl⟩ := List.mem_getLast?_eq_getLast h
  exact List.getLast_mem h'

theorem dropWhile_eq_self_of_head (p : Char → Bool) (l : List Char)
    (h : ∀ c, l.head? = some c → p c = false) : l.dropWhile p = l := by
  cases l with
  | nil => simp
  | cons c t =>
    rw [List.dropWhile_cons, if_neg]
    simp [h c rfl]

/-- The space-join of nonempty whitespace-free tokens has no whitespace at
either edge. -/
theorem joinSpace_no_edge_ws :
    ∀ (toks : List (List Char)),
      (∀ tok ∈ toks, tok ≠ [] ∧ ∀ c ∈ tok, isWsPy c = false) →
      (∀ c, (joinSpace toks).head? = some c → isWsPy c = false) ∧
      (∀ c, (joinSpace toks).getLast? = some c → isWsPy c = false)
  | [], _ => by constructor <;> intro c hc <;> simp [joinSpace] at hc
  | [t], h => by
    constructor <;> intro c hc
    · exact (h t (by simp)).2 c (List.mem_of_mem_head? (by simp [joinSpace] at hc; simp [hc]))
    · exact (h t (by simp)).2 c (mem_of_getLast?_eq (by simpa [joinSpace] using hc))
  | t :: t' :: rest, h => by
    obtain ⟨hne, hwf⟩ := h t (by simp)
    have ih := joinSpace_no_edge_ws (t' :: rest) (fun tok htok => h tok (by simp [htok]))
    have hjoin : joinSpace (t :: t' :: rest) = t ++ ' ' :: joinSpace (t' :: rest) := by
      match t, hne with
      | c :: tl, _ => rfl
    constructor <;> intro c hc
    · rw [hjoin, List.head?_append] at hc
      match t, hne, hc with
      | d :: tl, _, hc =>
        simp at hc
        exact hwf c (by simp [hc])
    · rw [hjoin, List.getLast?_append] at hc
      have hne' : joinSpace (t' :: rest) ≠ [] := by
        have ht' := (h t' (by simp)).1
        have : joinSpace (t' :: rest) = t' ++ match rest with
          | [] => [] | _ => ' ' :: joinSpace rest := by
          match rest with
          | [] => simp [joinSpace]
          | r :: rs =>
            match t', ht' with
            | c' :: tl', _ => rfl
        intro hcon
        rw [this] at hcon
        rcases List.append_eq_nil.mp hcon with ⟨h1, _⟩
        exact ht' h1
      have hsome : (' ' :: joinSpace (t' :: rest)).getLast? =
          (joinSpace (t' :: rest)).getLast? := by
        have : (' ' :: joinSpace (t' :: rest)) = [' '] ++ joinSpace (t' :: rest) := rfl
        rw [this, List.getLast?_append,
          Option.or_of_isSome (List.getLast?_isSome.mpr hne')]
      rw [hsome, Option.or_of_isSome (List.getLast?_isSome.mpr hne')] at hc
      exact ih.2 c hc

/-- Stripping is a no-op on a space-join of wellformed tokens. -/
theorem stripL_joinSpace (toks : List (List Char))
    (hwf : ∀ tok ∈ toks, tok ≠ [] ∧ ∀ c ∈ tok, isWsPy c = false) :
    stripL (joinSpace toks) = joinSpace toks := by
  have hedge := joinSpace_no_edge_ws toks hwf
  unfold stripL
  rw [dropWhile_eq_self_of_head _ _ hedge.1]
  rw [dropWhile_eq_self_of_head _ _ (by
    intro c hc
    rw [List.head?_reverse] at hc
    exact hedge.2 c hc)]
  exact List.reverse_reverse _

/-- Whitespace collapsing is idempotent. -/
theorem collapseWs_idem (l : List Char) : collapseWs (collapseWs l) = collapseWs l := by
  have hwf : ∀ tok ∈ splitWsL (stripL l), tok ≠ [] ∧ ∀ c ∈ tok, isWsPy c = false :=
    fun tok htok => splitWsL_tokens_wf (stripL l) tok htok
  show collapseWs (joinSpace (splitWsL (stripL l))) = _
  unfold collapseWs
  rw [stripL_joinSpace _ hwf, splitWsL_joinSpace _ hwf]

/-- Stripping is a no-op on a fully whitespace-free list. -/
theorem stripL_eq_self (l : List Char) (h : ∀ c ∈ l, isWsPy c = false) :
    stripL l = l := by
  unfold stripL
  have h1 : l.dropWhile isWsPy = l := dropWhile_eq_self_of_head _ _ (fun c hc =>
    h c (List.mem_of_mem_head? (by simp [hc])))
  have h2 : l.reverse.dropWhile isWsPy = l.reverse :=
    dropWhile_eq_self_of_head _ _ (fun c hc => by
      rw [List.head?_reverse] at hc
      exact h c (mem_of_getLast?_eq hc))
  rw [h1, h2, List.reverse_reverse]

/-- Collapsing is a no-op on a nonempty whitespace-free list. -/
theorem collapseWs_no_ws (l : List Char) (hne : l ≠ [])
    (h : ∀ c ∈ l, isWsPy c = false) : collapseWs l = l := by
  unfold collapseWs
  rw [stripL_eq_self l h]
  have hsplit : splitWsL l = [l] := by
    have := splitWsL_joinSpace [l] (by
      intro tok htok
      simp at htok
      subst htok
      exact ⟨hne, h⟩)
    simpa [joinSpace] using this
  rw [hsplit]
  rfl

theorem map_id_of (f : Char → Char) :
    ∀ (l : List Char), (∀ c ∈ l, f c = c) → l.map f = l
  | [], _ => rfl
  | c :: t, h => by
    rw [List.map_cons, h c (by simp), map_id_of f t (fun d hd => h d (by simp [hd]))]

theorem utf8DecodeReplace_nil : utf8DecodeReplace [] = [] := rfl

theorem pctDecodeF_no_pct :
    ∀ (n : Nat) (l : List Char), l.length ≤ n → (∀ c ∈ l, ¬ c = '%') →
      pctDecodeF n [] l = l
  | 0, l, hlen, _ => by
    have : l = [] := List.eq_nil_of_length_eq_zero (by omega)
    subst this
    rfl
  | _ + 1, [], _, _ => rfl
  | n + 1, c :: t, hlen, h => by
    rw [pctDecodeF.eq_def]
    dsimp only
    rw [if_neg (h c (by simp))]
    rw [pctDecodeF_no_pct n t (by simp at hlen; omega)
      (fun d hd => h d (by simp [hd]))]
    rfl

theorem pctDecodeAux_no_pct (l : List Char) (h : ∀ c ∈ l, ¬ c = '%') :
    pctDecodeAux [] l = l :=
  pctDecodeF_no_pct l.length l le_rfl h

theorem unquotePlusL_plain (l : List Char)
    (h : ∀ c ∈ l, ¬ c = '%' ∧ ¬ c = '+') : unquotePlusL l = l := by
  unfold unquotePlusL plusToSpace
  rw [map_id_of _ l (fun c hc => if_neg (h c hc).2)]
  exact pctDecodeAux_no_pct l (fun c hc => (h c hc).1)

theorem htmlUnescF_no_amp :
    ∀ (n : Nat) (l : List Char), l.length ≤ n → (∀ c ∈ l, ¬ c = '&') →
      htmlUnescF n l = l
  | 0, l, hlen, _ => by
    have : l = [] := List.eq_nil_of_length_eq_zero (by omega)
    subst this
    rfl
  | _ + 1, [], _, _ => rfl
  | n + 1, c :: t, hlen, h => by
    rw [htmlUnescF]
    rw [if_neg (h c (by simp))]
    rw [htmlUnescF_no_amp n t (by simp at hlen; omega)
      (fun d hd => h d (by simp [hd]))]

theorem htmlUnescapeL_no_amp (l : List Char) (h : ∀ c ∈ l, ¬ c = '&') :
    htmlUnescapeL l = l :=
  htmlUnescF_no_amp l.length l le_rfl h

theorem pdecodeLoop_stable (n : Nat) (l : List Char)
    (h : unquotePlusL l = l) : pdecodeLoop n l = l := by
  cases n with
  | zero => rfl
  | succ m => simp [pdecodeLoop, h]

/-! Rate-limiter lemmas -/

theorem rateAllow_accept (st : List ℤ) (now : ℤ)
    (hkeep : ∀ t ∈ st, now - t < TIME_WINDOW) (hlen : st.length < RATE_LIMIT) :
    rateAllow st now = (true, st ++ [now]) := by
  unfold rateAllow
  rw [List.filter_eq_self.mpr (by intro a ha; simpa using hkeep a ha)]
  rw [if_neg (by omega)]

theorem rateAllow_reject (st : List ℤ) (now : ℤ)
    (hkeep : ∀ t ∈ st, now - t < TIME_WINDOW) (hlen : RATE_LIMIT ≤ st.length) :
    rateAllow st now = (false, st) := by
  unfold rateAllow
  rw [List.filter_eq_self.mpr (by intro a ha; simpa using hkeep a ha)]
  rw [if_pos (by omega)]

theorem runRequests_all_accept :
    ∀ (ts st : List ℤ),
      (∀ t ∈ st, ∀ u ∈ ts, u - t < TIME_WINDOW) →
      (∀ t ∈ ts, ∀ u ∈ ts, u - t < TIME_WINDOW) →
      st.length + ts.length ≤ RATE_LIMIT →
      runRequests st ts = (List.replicate ts.length true, st ++ ts)
  | [], st, _, _, _ => by simp [runRequests]
  | u :: ts, st, h1, h2, hlen => by
    rw [runRequests]
    have hacc : rateAllow st u = (true, st ++ [u]) :=
      rateAllow_accept st u (fun t ht => h1 t ht u (by simp))
        (by simp at hlen; omega)
    rw [hacc]
    have hrec := runRequests_all_accept ts (st ++ [u])
      (by
        intro t ht v hv
        rcases List.mem_append.mp ht with ht | ht
        · exact h1 t ht v (by simp [hv])
        · have : t = u := by simpa using ht
          subst this
          exact h2 t (by simp) v (by simp [hv]))
      (fun t ht v hv => h2 t (by simp [ht]) v (by simp [hv]))
      (by simp at hlen ⊢; omega)
    dsimp only
    rw [hrec]
    simp [List.replicate_succ]

theorem runRequests_append :
    ∀ (xs ys st : List ℤ),
      runRequests st (xs ++ ys) =
        ((runRequests st xs).1 ++ (runRequests (runRequests st xs).2 ys).1,
         (runRequests (runRequests st xs).2 ys).2)
  | [], ys, st => by simp [runRequests]
  | x :: xs, ys, st => by
    rw [List.cons_append, runRequests, runRequests]
    dsimp only
    rw [runRequests_append xs ys]
    rfl

/-! Dedup lemmas -/

theorem dedupAux_sound :
    ∀ (l seen : List (String × String)),
      (dedupAux seen l).Nodup ∧
      (∀ x, x ∈ dedupAux seen l ↔ x ∈ l ∧ x ∉ seen)
  | [], seen => by simp [dedupAux]
  | kv :: t, seen => by
    rw [dedupAux]
    by_cases hk : kv ∈ seen
    · rw [if_pos hk]
      obtain ⟨hnd, hmem⟩ := dedupAux_sound t seen
      refine ⟨hnd, fun x => ?_⟩
      rw [hmem x]
      constructor
      · rintro ⟨hx, hs⟩
        exact ⟨by simp [hx], hs⟩
      · rintro ⟨hx, hs⟩
        rcases List.mem_cons.mp hx with rfl | hx
        · exact absurd hk hs
        · exact ⟨hx, hs⟩
    · rw [if_neg hk]
      obtain ⟨hnd, hmem⟩ := dedupAux_sound t (kv :: seen)
      constructor
      · refine List.nodup_cons.mpr ⟨?_, hnd⟩
        intro hx
        exact ((hmem kv).mp hx).2 (by simp)
      · intro x
        simp only [List.mem_cons]
        rw [hmem x]
        constructor
        · rintro (rfl | ⟨hx, hs⟩)
          · exact ⟨Or.inl rfl, hk⟩
          · refine ⟨Or.inr hx, fun hxs => hs (by simp [hxs])⟩
        · rintro ⟨hor, hs⟩
          rcases hor with rfl | hx
          · exact Or.inl rfl
          · by_cases hxkv : x = kv
            · exact Or.inl hxkv
            · exact Or.inr ⟨hx, by simp [hxkv, hs]⟩

theorem dedupKeep_nodup (l : List (String × String)) : (dedupKeep l).Nodup :=
  (dedupAux_sound l []).1

theorem dedupKeep_mem (l : List (String × String)) (x : String × String) :
    x ∈ dedupKeep l ↔ x ∈ l := by
  rw [dedupKeep, (dedupAux_sound l []).2 x]
  simp

/-! SHA-256 hexdigest shape lemmas -/

theorem toHex8_length (w : Nat) : (toHex8 w).length = 8 := rfl

theorem sha256hexUtf8_length (s : String) : (sha256hexUtf8 s).length = 64 := by
  unfold sha256hexUtf8
  show (toHex8 _ ++ toHex8 _ ++ toHex8 _ ++ toHex8 _ ++
    toHex8 _ ++ toHex8 _ ++ toHex8 _ ++ toHex8 _).length = 64
  simp [toHex8_length]

theorem hexDig_mem (n : Nat) : hexDig n ∈ "0123456789abcdef".data := by
  unfold hexDig
  have h : n % 16 < 16 := Nat.mod_lt _ (by omega)
  generalize n % 16 = m at h
  interval_cases m <;> decide

theorem toHex8_mem (w : Nat) (c : Char) (hc : c ∈ toHex8 w) :
    c ∈ "0123456789abcdef".data := by
  unfold toHex8 at hc
  simp only [List.mem_cons, List.not_mem_nil, or_false] at hc
  rcases hc with rfl | rfl | rfl | rfl | rfl | rfl | rfl | rfl
  all_goals exact hexDig_mem _

theorem sha256hexUtf8_hex (s : String) (c : Char)
    (hc : c ∈ (sha256hexUtf8 s).data) : c ∈ "0123456789abcdef".data := by
  unfold sha256hexUtf8 at hc
  have hc' : c ∈ toHex8 _ ++ toHex8 _ ++ toHex8 _ ++ toHex8 _ ++
      toHex8 _ ++ toHex8 _ ++ toHex8 _ ++ toHex8 _ := hc
  simp only [List.mem_append] at hc'
  rcases hc' with ((((((h | h) | h) | h) | h) | h) | h) | h
  all_goals exact toHex8_mem _ c h

/-! Dict and setdefault lemmas -/

theorem mem_dictSet :
    ∀ (d : List (String × String)) (k v : String) (kv : String × String),
      kv ∈ dictSet d k v → kv ∈ d ∨ kv = (k, v)
  | [], _, _, kv, h => by
    rw [dictSet] at h
    right
    simpa using h
  | e :: t, k, v, kv, h => by
    rw [dictSet] at h
    by_cases he : e.1 = k
    · rw [if_pos he] at h
      rcases List.mem_cons.mp h with rfl | h
      · right; rfl
      · left; simp [h]
    · rw [if_neg he] at h
      rcases List.mem_cons.mp h with rfl | h
      · left; simp
      · rcases mem_dictSet t k v kv h with h | h
        · left; simp [h]
        · right; exact h

theorem dictSet_self : ∀ (d : List (String × String)) (k v : String),
    (k, v) ∈ dictSet d k v
  | [], _, _ => by simp [dictSet]
  | e :: t, k, v => by
    rw [dictSet]
    by_cases he : e.1 = k
    · rw [if_pos he]; simp
    · rw [if_neg he]
      exact List.mem_cons_of_mem _ (dictSet_self t k v)

theorem dictSet_preserve :
    ∀ (d : List (String × String)) (k v : String) (kv : String × String),
      kv ∈ d → ¬ kv.1 = k → kv ∈ dictSet d k v
  | [], _, _, _, h, _ => by simp at h
  | e :: t, k, v, kv, h, hne => by
    rw [dictSet]
    by_cases he : e.1 = k
    · rw [if_pos he]
      rcases List.mem_cons.mp h with rfl | h
      · exact absurd he hne
      · exact List.mem_cons_of_mem _ h
    · rw [if_neg he]
      rcases List.mem_cons.mp h with rfl | h
      · simp
      · exact List.mem_cons_of_mem _ (dictSet_preserve t k v kv h hne)

theorem foldl_dictSet_inv (P : String × String → Prop)
    (hP : ∀ k v, P (k, v) → ∀ k' v', (k', v') = (k, v) → P (k', v')) :
    ∀ (l acc : List (String × String)),
      (∀ kv ∈ acc, P kv) → (∀ kv ∈ l, P kv) →
      ∀ kv ∈ l.foldl (fun a e => dictSet a e.1 e.2) acc, P kv
  | [], acc, hacc, _, kv, h => hacc kv (by simpa using h)
  | e :: t, acc, hacc, hl, kv, h => by
    rw [List.foldl_cons] at h
    refine foldl_dictSet_inv P hP t (dictSet acc e.1 e.2) ?_
      (fun x hx => hl x (by simp [hx])) kv h
    intro x hx
    rcases mem_dictSet acc e.1 e.2 x hx with hx | hx
    · exact hacc x hx
    · have he : P e := hl e (by simp)
      have : x = e := by rw [hx]
      rw [this]
      exact he

/-! Security-header (setdefault) lemmas -/

theorem mem_headerSetdefault (hs : List (String × String)) (n v : String)
    (kv : String × String) (h : kv ∈ headerSetdefault hs n v) :
    kv ∈ hs ∨ kv = (n, v) := by
  unfold headerSetdefault at h
  cases hf : hs.find? (fun kv => pyLower kv.1 == pyLower n) with
  | some e => rw [hf] at h; exact Or.inl h
  | none =>
    rw [hf] at h
    rcases List.mem_append.mp h with h | h
    · exact Or.inl h
    · right; simpa using h

theorem respHeaderGet_setdefault_preserve (hs : List (String × String))
    (n v name val : String) (h : respHeaderGet hs name = some val) :
    respHeaderGet (headerSetdefault hs n v) name = some val := by
  unfold headerSetdefault
  cases hf : hs.find? (fun kv => pyLower kv.1 == pyLower n) with
  | some e => exact h
  | none =>
    unfold respHeaderGet at h ⊢
    rw [List.find?_append]
    obtain ⟨kv, hkv, hv⟩ := Option.map_eq_some'.mp h
    rw [hkv]
    simpa using hv

theorem setdefault_isSome (hs : List (String × String)) (n v name : String)
    (h : pyLower name = pyLower n ∨ (respHeaderGet hs name).isSome) :
    (respHeaderGet (headerSetdefault hs n v) name).isSome := by
  rcases h with h | h
  · unfold headerSetdefault
    cases hf : hs.find? (fun kv => pyLower kv.1 == pyLower n) with
    | some e =>
      unfold respHeaderGet
      have : hs.find? (fun kv => pyLower kv.1 == pyLower name) = some e := by
        rw [show (fun kv : String × String => pyLower kv.1 == pyLower name) =
          (fun kv : String × String => pyLower kv.1 == pyLower n) from
          funext (fun kv => by rw [h])]
        exact hf
      rw [this]
      simp
    | none =>
      unfold respHeaderGet
      rw [List.find?_append]
      cases hg : hs.find? (fun kv => pyLower kv.1 == pyLower name) with
      | some e => simp
      | none =>
        have : ((n, v) :: []).find? (fun kv => pyLower kv.1 == pyLower name) =
            some (n, v) := by
          simp [List.find?, h]
        rw [this]
        simp
  · obtain ⟨val, hval⟩ := Option.isSome_iff_exists.mp h
    rw [respHeaderGet_setdefault_preserve hs n v name val hval]
    rfl

/-! Pipeline helpers -/

theorem parseProxy_isSome_proxy (path : String) (tp : String × String)
    (h : parseProxy path = some tp) : is_proxy_path path = true := by
  unfold parseProxy at h
  unfold is_proxy_path
  by_cases hs : strStartsWith path "/waf/" = true
  · exact hs
  · rw [if_neg hs] at h
    exact absurd h (by simp)

theorem skipRoute_proxy_false (path method : String)
    (hp : is_proxy_path path = true) : skipDetectionRoute path method = false := by
  unfold skipDetectionRoute routeOf
  cases hpp : parseProxy path with
  | some tp =>
    obtain ⟨tok, p⟩ := tp
    dsimp only
    by_cases hm : method ∈ PROXY_METHODS
    · rw [if_pos hm]
    · rw [if_neg hm]
  | none =>
    unfold is_proxy_path at hp
    have h1 : ¬ path = "/" := fun he => by rw [he] at hp; exact absurd hp (by decide)
    have h2 : ¬ path = "/echo" := fun he => by rw [he] at hp; exact absurd hp (by decide)
    have h3 : ¬ path = "/send-email" := fun he => by
      rw [he] at hp; exact absurd hp (by decide)
    have h4 : ¬ path = "/shutdown" := fun he => by
      rw [he] at hp; exact absurd hp (by decide)
    have h5 : ¬ path = "/health" := fun he => by rw [he] at hp; exact absurd hp (by decide)
    rw [if_neg h1, if_neg h2, if_neg h3, if_neg h4, if_neg h5]

theorem waf_before_proxy (ctx : RequestCtx) (rate : RateLog) (now : ℤ)
    (timeStr : String) (hp : is_proxy_path ctx.path = true) :
    waf_before ctx rate now timeStr = afterAllowlist ctx rate now timeStr := by
  unfold waf_before
  rw [if_neg (by simp [ENABLED])]
  rw [if_neg (by simp [WHITELIST_IPS])]
  rw [if_neg (by simp [skipRoute_proxy_false ctx.path ctx.method hp])]
  rw [if_neg (by simp [hp])]

theorem waf_before_pass (ctx : RequestCtx) (rate : RateLog) (now : ℤ)
    (timeStr : String)
    (hskip : skipDetectionRoute ctx.path ctx.method = false)
    (hallow : is_proxy_path ctx.path = true ∨
      (is_path_allowed ctx.path ctx.method (providedParams ctx)
        (some (headerGetD ctx.headers "Content-Type" ""))).1 = true) :
    waf_before ctx rate now timeStr = afterAllowlist ctx rate now timeStr := by
  rcases hallow with hp | hok
  · exact waf_before_proxy ctx rate now timeStr hp
  · unfold waf_before
    rw [if_neg (by simp [ENABLED])]
    rw [if_neg (by simp [WHITELIST_IPS])]
    rw [if_neg (by simp [hskip])]
    by_cases hp : is_proxy_path ctx.path = true
    · rw [if_neg (by simp [hp])]
    · rw [if_pos (by simp at hp; simp [hp])]
      rw [if_neg (by simp [hok])]

/-- Empty payloads trigger no signature. -/
theorem detectPhase_empty : detectPhase "" = [] := by decide

theorem afterAllowlist_rate_block (ctx : RequestCtx) (rate : RateLog) (now : ℤ)
    (timeStr : String)
    (hrate : (rateAllow (rateGet rate (ctx.remoteAddr.getD "unknown")) now).1 = false) :
    (afterAllowlist ctx rate now timeStr).resp =
      some ⟨429, [], .jsonError "Too many requests"⟩ := by
  unfold afterAllowlist
  simp only [rateCheck]
  simp [hrate]

theorem afterAllowlist_sig_block (ctx : RequestCtx) (rate : RateLog) (now : ℤ)
    (timeStr : String)
    (hrate : (rateAllow (rateGet rate (ctx.remoteAddr.getD "unknown")) now).1 = true)
    (hstatic : staticOrImageSkip ctx = false)
    (hdet : detectPhase (make_combined_payload ctx) ≠ []) :
    afterAllowlist ctx rate now timeStr =
      ⟨some ⟨403, [], .jsonError (sigBlockMsg (detectPhase (make_combined_payload ctx)))⟩,
       (detectPhase (make_combined_payload ctx)).map (fun m =>
         log_match timeStr (ctx.remoteAddr.getD "unknown") m.1 m.2 ctx.method
           ctx.path (headerGetD ctx.headers "User-Agent" "")
           (headerGetD ctx.headers "Referer" "") (make_combined_payload ctx)),
       (rateCheck rate (ctx.remoteAddr.getD "unknown") now).2⟩ := by
  unfold afterAllowlist
  simp only [rateCheck]
  simp [hrate, hstatic, hdet]

theorem afterAllowlist_resp_none (ctx : RequestCtx) (rate : RateLog) (now : ℤ)
    (timeStr : String)
    (h : (afterAllowlist ctx rate now timeStr).resp = none) :
    (rateAllow (rateGet rate (ctx.remoteAddr.getD "unknown")) now).1 = true ∧
    (staticOrImageSkip ctx = true ∨ detectPhase (make_combined_payload ctx) = []) := by
  unfold afterAllowlist at h
  simp only [rateCheck] at h
  by_cases hpr : (rateAllow (rateGet rate (ctx.remoteAddr.getD "unknown")) now).1 = true
  · refine ⟨hpr, ?_⟩
    by_cases hst : staticOrImageSkip ctx = true
    · exact Or.inl hst
    · right
      by_cases hun : detectPhase (make_combined_payload ctx) = []
      · exact hun
      · exfalso
        simp [hpr, hst, hun] at h
  · exfalso
    simp only [Bool.not_eq_true] at hpr
    simp [hpr] at h

/-- On a nonempty input free of `%`, `+`, `&` and whitespace,
`normalize_value` is truncation alone. -/
theorem normalize_value_plain (l : List Char) (hne : l ≠ [])
    (h : ∀ c ∈ l, ¬ c = '%' ∧ ¬ c = '+' ∧ ¬ c = '&' ∧ isWsPy c = false) :
    normalize_value ⟨l⟩ =
      ⟨if l.length > MAX_PAYLOAD_LENGTH then l.take MAX_PAYLOAD_LENGTH else l⟩ := by
  unfold normalize_value nfkc
  dsimp only
  rw [pdecodeLoop_stable 3 l (unquotePlusL_plain l (fun c hc =>
    ⟨(h c hc).1, (h c hc).2.1⟩))]
  rw [htmlUnescapeL_no_amp l (fun c hc => (h c hc).2.2.1)]
  rw [collapseWs_no_ws l hne (fun c hc => (h c hc).2.2.2)]

end Waf

namespace Waf

theorem mem_secHeaders (r : Resp) (kv : String × String)
    (h : kv ∈ (set_security_headers r).headers) :
    kv ∈ r.headers ∨ kv.1 ∈ SECURITY_HEADER_NAMES := by
  unfold set_security_headers at h
  dsimp only at h
  rcases mem_headerSetdefault _ _ _ _ h with h | rfl
  on_goal 2 => right; decide
  rcases mem_headerSetdefault _ _ _ _ h with h | rfl
  on_goal 2 => right; decide
  rcases mem_headerSetdefault _ _ _ _ h with h | rfl
  on_goal 2 => right; decide
  rcases mem_headerSetdefault _ _ _ _ h with h | rfl
  on_goal 2 => right; decide
  rcases mem_headerSetdefault _ _ _ _ h with h | rfl
  on_goal 2 => right; decide
  rcases mem_headerSetdefault _ _ _ _ h with h | rfl
  on_goal 2 => right; decide
  rcases mem_headerSetdefault _ _ _ _ h with h | rfl
  on_goal 2 => right; decide
  exact Or.inl h

theorem secHeaders_status (r : Resp) : (set_security_headers r).status = r.status := rfl

theorem secHeaders_body (r : Resp) : (set_security_headers r).body = r.body := rfl

/-- C3: a missing map file, an unreadable map file, or an unknown token
makes `resolve_origin` return none and `waf_proxy` respond 404; an upstream
timeout yields 504; a refused/unreachable connection yields 502; any other
transport error yields 502. -/
theorem claim_c3_proxy_error_mapping :
    (∀ tok, resolve_origin .missing tok = none) ∧
    (∀ tok, resolve_origin .unreadable tok = none) ∧
    (∀ entries tok, mapGet entries tok = none →
      resolve_origin (.readable entries) tok = none) ∧
    (∀ ctx tok p mp up, resolve_origin mp tok = none →
      waf_proxy ctx tok p mp up = ⟨404, [], .jsonError "Unknown token"⟩) ∧
    (∀ ctx tok p mp origin, resolve_origin mp tok = some origin →
      (waf_proxy ctx tok p mp .timeout).status = 504 ∧
      (waf_proxy ctx tok p mp .connectionError).status = 502 ∧
      (waf_proxy ctx tok p mp .requestException).status = 502) := by
  refine ⟨fun tok => rfl, fun tok => rfl, ?_, ?_, ?_⟩
  · intro entries tok h
    simp [resolve_origin, h]
  · intro ctx tok p mp up h
    simp [waf_proxy, h]
  · intro ctx tok p mp origin h
    simp [waf_proxy, h]

/-- Witness for C3 at concrete inputs. -/
theorem claim_c3_proxy_error_mapping_witness :
    resolve_origin (.readable [("t", "http://o")]) "z" = none ∧
    (waf_proxy ⟨"GET", "/waf/z/x", some "1.2.3.4", [], [], [], none, "", "",
      "http", "h", []⟩ "z" "x" (.readable [("t", "http://o")]) .timeout) =
      ⟨404, [], .jsonError "Unknown token"⟩ ∧
    (waf_proxy ⟨"GET", "/waf/t/x", some "1.2.3.4", [], [], [], none, "", "",
      "http", "h", []⟩ "t" "x" (.readable [("t", "http://o")]) .timeout).status = 504 :=
  ⟨claim_c3_proxy_error_mapping.2.2.1 [("t", "http://o")] "z" (by decide),
   claim_c3_proxy_error_mapping.2.2.2.1 _ "z" "x" (.readable [("t", "http://o")])
     .timeout (by decide),
   (claim_c3_proxy_error_mapping.2.2.2.2 _ "t" "x" (.readable [("t", "http://o")])
     "http://o" (by decide)).1⟩

/-- C10: the after-request hook adds each of the seven security response
headers with setdefault semantics: every response contains all seven names,
while a value already present (for example a Content-Security-Policy copied
from a proxied origin) is preserved, and status and body are unchanged. -/
theorem claim_c10_security_headers (r : Resp) :
    ((set_security_headers r).status = r.status ∧
     (set_security_headers r).body = r.body) ∧
    (∀ name ∈ SECURITY_HEADER_NAMES,
      (respHeaderGet (set_security_headers r).headers name).isSome) ∧
    (∀ name val, respHeaderGet r.headers name = some val →
      respHeaderGet (set_security_headers r).headers name = some val) := by
  refine ⟨⟨rfl, rfl⟩, ?_, ?_⟩
  · intro name hname
    unfold set_security_headers
    dsimp only
    simp only [SECURITY_HEADER_NAMES, List.mem_cons, List.not_mem_nil, or_false] at hname
    rcases hname with rfl | rfl | rfl | rfl | rfl | rfl | rfl
    · refine setdefault_isSome _ _ _ _ (Or.inr ?_)
      refine setdefault_isSome _ _ _ _ (Or.inr ?_)
      refine setdefault_isSome _ _ _ _ (Or.inr ?_)
      refine setdefault_isSome _ _ _ _ (Or.inr ?_)
      refine setdefault_isSome _ _ _ _ (Or.inr ?_)
      refine setdefault_isSome _ _ _ _ (Or.inr ?_)
      exact setdefault_isSome _ _ _ _ (Or.inl rfl)
    · refine setdefault_isSome _ _ _ _ (Or.inr ?_)
      refine setdefault_isSome _ _ _ _ (Or.inr ?_)
      refine setdefault_isSome _ _ _ _ (Or.inr ?_)
      refine setdefault_isSome _ _ _ _ (Or.inr ?_)
      refine setdefault_isSome _ _ _ _ (Or.inr ?_)
      exact setdefault_isSome _ _ _ _ (Or.inl rfl)
    · refine setdefault_isSome _ _ _ _ (Or.inr ?_)
      refine setdefault_isSome _ _ _ _ (Or.inr ?_)
      refine setdefault_isSome _ _ _ _ (Or.inr ?_)
      refine setdefault_isSome _ _ _ _ (Or.inr ?_)
      exact setdefault_isSome _ _ _ _ (Or.inl rfl)
    · refine setdefault_isSome _ _ _ _ (Or.inr ?_)
      refine setdefault_isSome _ _ _ _ (Or.inr ?_)
      refine setdefault_isSome _ _ _ _ (Or.inr ?_)
      exact setdefault_isSome _ _ _ _ (Or.inl rfl)
    · refine setdefault_isSome _ _ _ _ (Or.inr ?_)
      refine setdefault_isSome _ _ _ _ (Or.inr ?_)
      exact setdefault_isSome _ _ _ _ (Or.inl rfl)
    · refine setdefault_isSome _ _ _ _ (Or.inr ?_)
      exact setdefault_isSome _ _ _ _ (Or.inl rfl)
    · exact setdefault_isSome _ _ _ _ (Or.inl rfl)
  · intro name val h
    unfold set_security_headers
    dsimp only
    repeat apply respHeaderGet_setdefault_preserve
    exact h

/-- Witness for C10: a CSP already present on the response survives the
after-request hook, while a fresh response gains all seven headers. -/
theorem claim_c10_security_headers_witness :
    respHeaderGet (set_security_headers
      ⟨200, [("Content-Security-Policy", "origin-policy")], .empty⟩).headers
      "Content-Security-Policy" = some "origin-policy" ∧
    (respHeaderGet (set_security_headers ⟨200, [], .empty⟩).headers
      "X-Frame-Options").isSome :=
  ⟨(claim_c10_security_headers
      ⟨200, [("Content-Security-Policy", "origin-policy")], .empty⟩).2.2
      "Content-Security-Policy" "origin-policy" (by decide),
   (claim_c10_security_headers ⟨200, [], .empty⟩).2.1 "X-Frame-Options" (by decide)⟩

end Waf

namespace Waf

theorem buildUpstreamHeaders_no_hop (ctx : RequestCtx) :
    ∀ kv ∈ buildUpstreamHeaders ctx, ¬ pyLower kv.1 ∈ HOP_BY_HOP_HEADERS := by
  intro kv hkv
  unfold buildUpstreamHeaders at hkv
  dsimp only at hkv
  rcases mem_dictSet _ _ _ _ hkv with hkv | rfl
  on_goal 2 => exact (by decide : ¬ pyLower "X-Forwarded-Host" ∈ HOP_BY_HOP_HEADERS)
  rcases mem_dictSet _ _ _ _ hkv with hkv | rfl
  on_goal 2 => exact (by decide : ¬ pyLower "X-Forwarded-Proto" ∈ HOP_BY_HOP_HEADERS)
  rcases mem_dictSet _ _ _ _ hkv with hkv | rfl
  on_goal 2 => exact (by decide : ¬ pyLower "X-Forwarded-For" ∈ HOP_BY_HOP_HEADERS)
  refine foldl_dictSet_inv (fun kv => ¬ pyLower kv.1 ∈ HOP_BY_HOP_HEADERS)
    (fun k v h k' v' he => by rw [he] at *; exact h) _ [] (by simp) ?_ kv hkv
  intro e he
  have hpred := (List.mem_filter.mp he).2
  intro hmem
  simp only [Bool.not_eq_true'] at hpred
  exact absurd (List.elem_eq_true_of_mem hmem) (by simpa using hpred)

/-- C4: the upstream header set contains no hop-by-hop header (nor Host)
and does contain the three X-Forwarded headers; the relayed response keeps
the origin's status and body and strips the same hop-by-hop set, whatever
the origin sent. -/
theorem claim_c4_header_hygiene (ctx : RequestCtx) :
    (∀ kv ∈ buildUpstreamHeaders ctx, ¬ pyLower kv.1 ∈ HOP_BY_HOP_HEADERS) ∧
    (("X-Forwarded-For", ctx.remoteAddr.getD "unknown") ∈ buildUpstreamHeaders ctx ∧
     ("X-Forwarded-Proto", ctx.scheme) ∈ buildUpstreamHeaders ctx ∧
     ("X-Forwarded-Host", ctx.host) ∈ buildUpstreamHeaders ctx) ∧
    (∀ tok p mp origin st hs body, resolve_origin mp tok = some origin →
      (set_security_headers (waf_proxy ctx tok p mp (.ok st hs body))).status = st ∧
      (set_security_headers (waf_proxy ctx tok p mp (.ok st hs body))).body =
        .upstream body ∧
      ∀ kv ∈ (set_security_headers (waf_proxy ctx tok p mp (.ok st hs body))).headers,
        ¬ pyLower kv.1 ∈ HOP_BY_HOP_HEADERS) := by
  refine ⟨buildUpstreamHeaders_no_hop ctx, ⟨?_, ?_, ?_⟩, ?_⟩
  · unfold buildUpstreamHeaders
    dsimp only
    refine dictSet_preserve _ _ _ _ (dictSet_preserve _ _ _ _ (dictSet_self _ _ _)
      (by decide : ¬ "X-Forwarded-For" = "X-Forwarded-Proto"))
      (by decide : ¬ "X-Forwarded-For" = "X-Forwarded-Host")
  · unfold buildUpstreamHeaders
    dsimp only
    exact dictSet_preserve _ _ _ _ (dictSet_self _ _ _)
      (by decide : ¬ "X-Forwarded-Proto" = "X-Forwarded-Host")
  · unfold buildUpstreamHeaders
    dsimp only
    exact dictSet_self _ _ _
  · intro tok p mp origin st hs body hres
    have hproxy : waf_proxy ctx tok p mp (.ok st hs body) =
        ⟨st, hs.filter (fun kv => !(HOP_BY_HOP_HEADERS.contains (pyLower kv.1))),
         .upstream body⟩ := by
      simp [waf_proxy, hres]
    refine ⟨by rw [secHeaders_status, hproxy], by rw [secHeaders_body, hproxy], ?_⟩
    intro kv hkv
    rcases mem_secHeaders _ kv hkv with hkv | hname
    · rw [hproxy] at hkv
      have hpred := (List.mem_filter.mp hkv).2
      intro hmem
      simp only [Bool.not_eq_true'] at hpred
      exact absurd (List.elem_eq_true_of_mem hmem) (by simpa using hpred)
    · simp only [SECURITY_HEADER_NAMES, List.mem_cons, List.not_mem_nil,
        or_false] at hname
      rcases hname with h | h | h | h | h | h | h <;> rw [h] <;> decide


/-- Witness for C4 at a concrete request and origin response carrying
hop-by-hop headers. -/
theorem claim_c4_header_hygiene_witness :
    (("X-Forwarded-For", "1.2.3.4") ∈ buildUpstreamHeaders
      ⟨"GET", "/waf/t/x", some "1.2.3.4", [("Connection", "keep-alive"),
        ("Accept", "*/*")], [], [], none, "", "", "http", "h", []⟩) ∧
    (set_security_headers (waf_proxy
      ⟨"GET", "/waf/t/x", some "1.2.3.4", [], [], [], none, "", "", "http", "h", []⟩
      "t" "x" (.readable [("t", "http://o")])
      (.ok 200 [("Transfer-Encoding", "chunked")] "body"))).status = 200 :=
  ⟨(claim_c4_header_hygiene _).2.1.1,
   ((claim_c4_header_hygiene _).2.2 "t" "x" (.readable [("t", "http://o")])
     "http://o" 200 [("Transfer-Encoding", "chunked")] "body" (by decide)).1⟩

end Waf

namespace Waf

/-- C7: the allowlist validator is default-open; a configured entry rejects
a method outside its set; content-type membership is consulted only when
both a restriction and an incoming content-type exist; and only an explicit
parameter set causes rejection of unknown parameter names. -/
theorem claim_c7_allowlist_semantics :
    (∀ path method provided ct, allowlistGet path = none →
      is_path_allowed path method provided ct = (true, "")) ∧
    (∀ path method provided ct cfg, allowlistGet path = some cfg →
      ¬ method ∈ cfg.methods →
      is_path_allowed path method provided ct =
        (false, "Method not allowed for path")) ∧
    (∀ path method provided cfg cts ct, allowlistGet path = some cfg →
      method ∈ cfg.methods → cfg.content_types = some cts →
      ¬ ctMain ct ∈ cts →
      is_path_allowed path method provided (some ct) =
        (false, "Content-Type not allowed")) ∧
    (∀ path method provided ct cfg, allowlistGet path = some cfg →
      cfg.content_types = none ∨ ct = none →
      is_path_allowed path method provided ct =
        is_path_allowed path method provided none) ∧
    (∀ path method provided ct cfg ps, allowlistGet path = some cfg →
      method ∈ cfg.methods →
      (cfg.content_types = none ∨ ct = none ∨
        (∃ cts c, cfg.content_types = some cts ∧ ct = some c ∧ ctMain c ∈ cts)) →
      cfg.params = some ps → (∃ p ∈ provided, ¬ p ∈ ps) →
      (is_path_allowed path method provided ct).1 = false ∧
      ∃ q ∈ provided, ¬ q ∈ ps ∧
        (is_path_allowed path method provided ct).2 =
          "Parameter " ++ sqs ++ q ++ sqs ++ " not allowed") ∧
    (∀ path method provided ct cfg, allowlistGet path = some cfg →
      method ∈ cfg.methods →
      (cfg.content_types = none ∨ ct = none ∨
        (∃ cts c, cfg.content_types = some cts ∧ ct = some c ∧ ctMain c ∈ cts)) →
      (cfg.params = none ∨ ∃ ps, cfg.params = some ps ∧ ∀ p ∈ provided, p ∈ ps) →
      is_path_allowed path method provided ct = (true, "")) := by
  refine ⟨?_, ?_, ?_, ?_, ?_, ?_⟩
  · intro path method provided ct h
    simp [is_path_allowed, h]
  · intro path method provided ct cfg h hm
    simp [is_path_allowed, h, hm]
  · intro path method provided cfg cts ct h hm hcts hct
    simp [is_path_allowed, h, hm, hcts, hct]
  · intro path method provided ct cfg h hor
    rcases hor with hcts | hct
    · cases ct with
      | none => rfl
      | some c => simp [is_path_allowed, h, hcts]
    · rw [hct]
  · intro path method provided ct cfg ps h hm hok hps hex
    obtain ⟨p, hp, hpns⟩ := hex
    have hfind : ∃ q, provided.find? (fun x : String => !decide (x ∈ ps)) = some q := by
      have : (provided.find? (fun x : String => !decide (x ∈ ps))).isSome := by
        rw [List.find?_isSome]
        exact ⟨p, hp, by simp [hpns]⟩
      exact Option.isSome_iff_exists.mp this
    obtain ⟨q, hq⟩ := hfind
    have hqin := List.mem_of_find?_eq_some hq
    have hqpred := List.find?_some hq
    have hqns : ¬ q ∈ ps := by simpa using hqpred
    rcases hok with hcts | hct | ⟨cts, c, h1, h2, h3⟩
    · refine ⟨?_, q, hqin, hqns, ?_⟩ <;>
        simp [is_path_allowed, h, hm, hcts, hps, hq]
    · refine ⟨?_, q, hqin, hqns, ?_⟩ <;>
        simp [is_path_allowed, h, hm, hct, hps, hq]
    · refine ⟨?_, q, hqin, hqns, ?_⟩ <;>
        simp [is_path_allowed, h, hm, h1, h2, h3, hps, hq]
  · intro path method provided ct cfg h hm hok hps
    have hfind : ∀ (ps : List String), (∀ p ∈ provided, p ∈ ps) →
        provided.find? (fun x : String => !decide (x ∈ ps)) = none := by
      intro ps hall
      rw [List.find?_eq_none]
      intro x hx
      simp [hall x hx]
    rcases hok with hcts | hct | ⟨cts, c, h1, h2, h3⟩ <;>
      rcases hps with hps | ⟨ps, hps, hall⟩
    · simp [is_path_allowed, h, hm, hcts, hps]
    · simp [is_path_allowed, h, hm, hcts, hps, hfind ps hall]
    · simp [is_path_allowed, h, hm, hct, hps]
    · simp [is_path_allowed, h, hm, hct, hps, hfind ps hall]
    · simp [is_path_allowed, h, hm, h1, h2, h3, hps]
    · simp [is_path_allowed, h, hm, h1, h2, h3, hps, hfind ps hall]

/-- Witness for C7 at concrete inputs: an unconfigured path is allowed, and
`/send-email` with an unknown parameter is rejected with the parameter
reason. -/
theorem claim_c7_allowlist_semantics_witness :
    is_path_allowed "/nothing" "GET" ["x"] (some "text/plain") = (true, "") ∧
    (is_path_allowed "/send-email" "POST" ["evil"]
      (some "application/json")).1 = false :=
  ⟨claim_c7_allowlist_semantics.1 "/nothing" "GET" ["x"] (some "text/plain")
     (by decide),
   (claim_c7_allowlist_semantics.2.2.2.2.1 "/send-email" "POST" ["evil"]
     (some "application/json") ⟨["POST"], some ["to", "subject", "body"],
       some ["application/json"]⟩ ["to", "subject", "body"] (by decide)
     (by decide)
     (Or.inr (Or.inr ⟨["application/json"], "application/json", rfl, rfl,
       by decide⟩))
     rfl ⟨"evil", by decide, by decide⟩).1⟩

end Waf

namespace Waf

/-- C2: the rate limiter is a strict per-IP sliding window: each check
prunes timestamps older than 60 seconds, rejects with 429 (without
appending) when the remaining count reaches 20, and otherwise appends and
accepts; from one IP the 21st request inside a rolling 60-second window is
rejected while the first 20 are not, and after 60 idle seconds the counter
resets. -/
theorem claim_c2_rate_limiter :
    (∀ ts : List ℤ, ts.length = RATE_LIMIT + 1 →
      (∀ t ∈ ts, ∀ u ∈ ts, u - t < TIME_WINDOW) →
      (runRequests [] ts).1 = List.replicate RATE_LIMIT true ++ [false]) ∧
    (∀ times now, (∀ t ∈ times, TIME_WINDOW ≤ now - t) →
      rateAllow times now = (true, [now])) ∧
    (∀ times now,
      RATE_LIMIT ≤ (times.filter (fun t => now - t < TIME_WINDOW)).length →
      rateAllow times now =
        (false, times.filter (fun t => now - t < TIME_WINDOW))) ∧
    (∀ ctx rate now timeStr, is_proxy_path ctx.path = true →
      (rateAllow (rateGet rate (ctx.remoteAddr.getD "unknown")) now).1 = false →
      (waf_before ctx rate now timeStr).resp =
        some ⟨429, [], .jsonError "Too many requests"⟩) := by
  refine ⟨?_, ?_, ?_, ?_⟩
  · intro ts hlen hwin
    rcases List.eq_nil_or_concat ts with rfl | ⟨init, last, rfl⟩
    · simp at hlen
    · rw [List.concat_eq_append] at hlen hwin ⊢
      have hinit : init.length = RATE_LIMIT := by simp at hlen; omega
      have hfirst := runRequests_all_accept init [] (by simp)
        (fun t ht u hu => hwin t (by simp [ht]) u (by simp [hu]))
        (by simp [hinit])
      rw [runRequests_append, hfirst]
      dsimp only
      rw [runRequests]
      have hrej : rateAllow ([] ++ init) last = (false, [] ++ init) :=
        rateAllow_reject _ _
          (fun t ht => hwin t (by simp at ht; simp [ht]) last (by simp))
          (by simp [hinit])
      rw [hrej]
      dsimp only
      rw [runRequests]
      simp [hinit]
  · intro times now h
    unfold rateAllow
    rw [List.filter_eq_nil_iff.mpr (by
      intro t ht
      simp only [decide_eq_true_eq]
      have := h t ht
      omega)]
    rw [if_neg (by simp [RATE_LIMIT])]
    rfl
  · intro times now h
    unfold rateAllow
    rw [if_pos h]
  · intro ctx rate now timeStr hp hrate
    rw [waf_before_proxy ctx rate now timeStr hp]
    exact afterAllowlist_rate_block ctx rate now timeStr hrate

/-- Witness for C2: twenty-one requests at one-second intervals from one
IP, and a reset after an idle minute. -/
theorem claim_c2_rate_limiter_witness :
    (runRequests [] ((List.range (RATE_LIMIT + 1)).map (fun i => (i : ℤ)))).1 =
      List.replicate RATE_LIMIT true ++ [false] ∧
    rateAllow [(0 : ℤ)] 100 = (true, [100]) :=
  ⟨claim_c2_rate_limiter.1 _ (by decide) (by decide),
   claim_c2_rate_limiter.2.1 [0] 100 (by decide)⟩

end Waf

namespace Waf

/-- C1 (amended): the forwarder is reached only for proxy-path requests
that passed the rate-limit check and either passed signature detection or
hit the static/image detection bypass (`waf_before` line 316); a request
blocked by the before-hook never reaches the forwarder.  (The original
claim, that every forwarded request passed signature detection, fails on
the image-content-type bypass: see the counterexample.) -/
theorem claim_c1_forwarder_gating :
    (∀ ctx rate now timeStr mp up,
      (handleRequest ctx rate now timeStr mp up).forwarded = true →
        is_proxy_path ctx.path = true ∧
        (rateAllow (rateGet rate (ctx.remoteAddr.getD "unknown")) now).1 = true ∧
        (staticOrImageSkip ctx = true ∨
          detectPhase (make_combined_payload ctx) = [])) ∧
    (∀ ctx rate now timeStr mp up,
      (waf_before ctx rate now timeStr).resp.isSome →
        (handleRequest ctx rate now timeStr mp up).forwarded = false) := by
  constructor
  · intro ctx rate now timeStr mp up hfwd
    unfold handleRequest at hfwd
    dsimp only at hfwd
    cases hresp : (waf_before ctx rate now timeStr).resp with
    | some r =>
      rw [hresp] at hfwd
      simp at hfwd
    | none =>
      rw [hresp] at hfwd
      cases hroute : routeOf ctx.path ctx.method <;> rw [hroute] at hfwd <;>
        try simp at hfwd
      case wafProxy tok p =>
        have hp : is_proxy_path ctx.path = true := by
          unfold routeOf at hroute
          cases hpp : parseProxy ctx.path with
          | some tp => exact parseProxy_isSome_proxy _ tp hpp
          | none =>
            rw [hpp] at hroute
            dsimp only at hroute
            repeat' split at hroute
            all_goals exact Endpoint.noConfusion hroute
        refine ⟨hp, ?_⟩
        exact afterAllowlist_resp_none ctx rate now timeStr
          (by rw [← waf_before_proxy ctx rate now timeStr hp]; exact hresp)
  · intro ctx rate now timeStr mp up hsome
    obtain ⟨r, hr⟩ := Option.isSome_iff_exists.mp hsome
    unfold handleRequest
    dsimp only
    rw [hr]

/-- Witness for C1: a request blocked by the hook (allowlist rejection) is
not forwarded. -/
theorem claim_c1_forwarder_gating_witness :
    (handleRequest ⟨"POST", "/echo", some "1.2.3.4",
      [("Content-Type", "text/plain")], [], [], none, "", "", "http", "h",
      []⟩ [] 0 "T" .missing .timeout).forwarded = false :=
  claim_c1_forwarder_gating.2 _ [] 0 "T" .missing .timeout (by decide)

/-- C1 counterexample: a proxy request with an image content type whose
query parameter matches a SQL-injection signature is forwarded upstream
even though signature detection (which the claim requires it to pass)
flags its payload — detection is bypassed for `image/*` content types. -/
theorem claim_c1_forwarder_gating_cex :
    (handleRequest ⟨"GET", "/waf/t/x", some "1.2.3.4",
      [("Content-Type", "image/png")], [("q", "xp_cmdshell")], [], none, "",
      "", "http", "h", []⟩ [] 0 "T" (.readable [("t", "http://origin")])
      (.ok 200 [] "hi")).forwarded = true ∧
    detectPhase (make_combined_payload ⟨"GET", "/waf/t/x", some "1.2.3.4",
      [("Content-Type", "image/png")], [("q", "xp_cmdshell")], [], none, "",
      "", "http", "h", []⟩) ≠ [] := by
  constructor <;> decide

/-- C5 (amended): each individual normalized value is capped at 30,000
characters; the combined payload is the space-join of the per-value-capped
parts and is not itself capped (see the counterexample, where a single
30,001-character query value yields a 30,002-character combined payload). -/
theorem claim_c5_payload_cap (v : String) :
    (normalize_value v).length ≤ MAX_PAYLOAD_LENGTH := by
  unfold normalize_value
  dsimp only
  show (if _ > MAX_PAYLOAD_LENGTH then _ else _ : List Char).length ≤ _
  split
  · rw [List.length_take]
    omega
  · omega

/-- C5 counterexample: a request with one 30,001-character query value has
a combined payload of 30,002 characters, exceeding the claimed 30,000 cap. -/
theorem claim_c5_payload_cap_cex :
    MAX_PAYLOAD_LENGTH <
      (make_combined_payload ⟨"GET", "/", some "1.2.3.4", [],
        [("a", ⟨List.replicate 30001 'a'⟩)], [], none, "", "", "http", "h",
        []⟩).length := by
  have hnorm : normalize_value ⟨List.replicate 30001 'a'⟩ =
      ⟨List.replicate 30000 'a'⟩ := by
    rw [normalize_value_plain _ (by
        intro h
        have hl := congrArg List.length h
        rw [List.length_replicate] at hl
        exact absurd hl (by norm_num))
      (fun c hc => by
        have hce := List.eq_of_mem_replicate hc
        subst hce
        exact ⟨by decide, by decide, by decide, by decide⟩)]
    rw [if_pos (by rw [List.length_replicate]; norm_num [MAX_PAYLOAD_LENGTH])]
    rw [List.take_replicate]
    rw [show min MAX_PAYLOAD_LENGTH 30001 = 30000 from by
      norm_num [MAX_PAYLOAD_LENGTH]]
  have hlen : (("a" ++ "=" ++ (⟨List.replicate 30000 'a'⟩ : String))).length = 30002 := by
    rw [String.length_append, String.length_append]
    rw [show ((⟨List.replicate 30000 'a'⟩ : String)).length = 30000 from by
      show (List.replicate 30000 'a').length = 30000
      rw [List.length_replicate]]
    rfl
  have hne : ¬ ("a" ++ "=" ++ (⟨List.replicate 30000 'a'⟩ : String) = "") := by
    intro he
    have hl := congrArg String.length he
    rw [hlen] at hl
    exact absurd hl (by norm_num)
  have hcond : (decide ("a" ++ "=" ++ (⟨List.replicate 30000 'a'⟩ : String) = ""))
      = false := decide_eq_false hne
  unfold make_combined_payload
  dsimp only
  rw [if_neg (by decide), if_pos (by decide)]
  simp only [List.map_cons, List.map_nil]
  rw [hnorm]
  simp only [List.append_nil, List.nil_append]
  rw [List.filter_cons_of_pos (by show (!decide _) = true; rw [hcond]; rfl),
    List.filter_nil]
  rw [show String.intercalate " "
      ["a" ++ "=" ++ (⟨List.replicate 30000 'a'⟩ : String)] =
      "a" ++ "=" ++ (⟨List.replicate 30000 'a'⟩ : String) from rfl]
  rw [hlen]
  norm_num [MAX_PAYLOAD_LENGTH]

end Waf

namespace Waf

/-- C6 (amended): a request to `/echo` with `Content-Type: text/plain` is
rejected with 403 by the allowlist check of the before-request hook — the
route-level 415 check is unreachable while the WAF runs (see the
counterexample against the claimed 415); a `/send-email` request carrying a
parameter name outside `to`/`subject`/`body` yields 403 with the
parameter-not-allowed reason in its audit record; and allowlist validation
is skipped entirely for proxy paths. -/
theorem claim_c6_allowlist_routes :
    (∀ ctx rate now timeStr mp up,
      ctx.path = "/echo" → ctx.method = "POST" →
      headerGetD ctx.headers "Content-Type" "" = "text/plain" →
      (handleRequest ctx rate now timeStr mp up).resp.status = 403) ∧
    (∀ ctx rate now timeStr mp up,
      ctx.path = "/send-email" → ctx.method = "POST" →
      ctMain (headerGetD ctx.headers "Content-Type" "") = "application/json" →
      (∃ p ∈ providedParams ctx, ¬ p ∈ ["to", "subject", "body"]) →
      (handleRequest ctx rate now timeStr mp up).resp.status = 403 ∧
      ∃ q ∈ providedParams ctx, ¬ q ∈ ["to", "subject", "body"] ∧
        (waf_before ctx rate now timeStr).logs =
          [log_match timeStr (ctx.remoteAddr.getD "unknown")
            "AllowListViolation"
            ("Parameter " ++ sqs ++ q ++ sqs ++ " not allowed") ctx.method
            ctx.path (headerGetD ctx.headers "User-Agent" "")
            (headerGetD ctx.headers "Referer" "")
            (make_combined_payload ctx)]) ∧
    (∀ ctx rate now timeStr, is_proxy_path ctx.path = true →
      waf_before ctx rate now timeStr = afterAllowlist ctx rate now timeStr) := by
  refine ⟨?_, ?_, fun ctx rate now t hp => waf_before_proxy ctx rate now t hp⟩
  · intro ctx rate now timeStr mp up hpath hmethod hct
    have hres : is_path_allowed ctx.path ctx.method (providedParams ctx)
        (some (headerGetD ctx.headers "Content-Type" "")) =
        (false, "Content-Type not allowed") := by
      rw [hpath, hmethod, hct]
      unfold is_path_allowed
      rw [show allowlistGet "/echo" = some ⟨["POST"], none,
        some ["application/json"]⟩ from rfl]
      dsimp only
      rw [if_neg (by decide)]
      rw [if_pos (by decide)]
    have hb : waf_before ctx rate now timeStr =
        ⟨some ⟨403, [], .jsonError "Request not allowed (allowlist)"⟩,
         [log_match timeStr (ctx.remoteAddr.getD "unknown") "AllowListViolation"
            "Content-Type not allowed" ctx.method ctx.path
            (headerGetD ctx.headers "User-Agent" "")
            (headerGetD ctx.headers "Referer" "")
            (make_combined_payload ctx)], rate⟩ := by
      unfold waf_before
      rw [if_neg (by simp [ENABLED])]
      rw [if_neg (by simp [WHITELIST_IPS])]
      rw [if_neg (by rw [hpath, hmethod]; decide)]
      rw [if_pos (by rw [hpath]; decide)]
      rw [hres]
      rfl
    have hbr : (waf_before ctx rate now timeStr).resp =
        some ⟨403, [], .jsonError "Request not allowed (allowlist)"⟩ := by
      rw [hb]
    unfold handleRequest
    dsimp only
    rw [hbr]
    rfl
  · intro ctx rate now timeStr mp up hpath hmethod hctm hex
    obtain ⟨p, hp, hpns⟩ := hex
    have hfind : ∃ q, (providedParams ctx).find?
        (fun x : String => !(["to", "subject", "body"].contains x)) = some q := by
      have : ((providedParams ctx).find?
          (fun x : String => !(["to", "subject", "body"].contains x))).isSome := by
        rw [List.find?_isSome]
        refine ⟨p, hp, ?_⟩
        simp only [Bool.not_eq_true']
        rw [← Bool.not_eq_true]
        intro hc
        exact hpns (List.mem_of_elem_eq_true hc)
      exact Option.isSome_iff_exists.mp this
    obtain ⟨q, hq⟩ := hfind
    have hqin := List.mem_of_find?_eq_some hq
    have hqpred := List.find?_some hq
    have hqns : ¬ q ∈ ["to", "subject", "body"] := by
      intro hqs
      simp only [Bool.not_eq_true'] at hqpred
      exact absurd (List.elem_eq_true_of_mem hqs) (by simpa using hqpred)
    have hres : is_path_allowed ctx.path ctx.method (providedParams ctx)
        (some (headerGetD ctx.headers "Content-Type" "")) =
        (false, "Parameter " ++ sqs ++ q ++ sqs ++ " not allowed") := by
      rw [hpath, hmethod]
      unfold is_path_allowed
      rw [show allowlistGet "/send-email" = some ⟨["POST"],
        some ["to", "subject", "body"], some ["application/json"]⟩ from rfl]
      dsimp only
      rw [if_neg (by decide)]
      rw [if_neg (by
        show ¬ ((!(["application/json"].contains
          (ctMain (headerGetD ctx.headers "Content-Type" "")))) = true)
        rw [hctm]
        decide)]
      rw [hq]
    have hb : waf_before ctx rate now timeStr =
        ⟨some ⟨403, [], .jsonError "Request not allowed (allowlist)"⟩,
         [log_match timeStr (ctx.remoteAddr.getD "unknown") "AllowListViolation"
            ("Parameter " ++ sqs ++ q ++ sqs ++ " not allowed") ctx.method
            ctx.path (headerGetD ctx.headers "User-Agent" "")
            (headerGetD ctx.headers "Referer" "")
            (make_combined_payload ctx)], rate⟩ := by
      unfold waf_before
      rw [if_neg (by simp [ENABLED])]
      rw [if_neg (by simp [WHITELIST_IPS])]
      rw [if_neg (by rw [hpath, hmethod]; decide)]
      rw [if_pos (by rw [hpath]; decide)]
      rw [hres]
      rfl
    refine ⟨?_, q, hqin, hqns, by rw [hb]⟩
    have hbr : (waf_before ctx rate now timeStr).resp =
        some ⟨403, [], .jsonError "Request not allowed (allowlist)"⟩ := by
      rw [hb]
    unfold handleRequest
    dsimp only
    rw [hbr]
    rfl

/-- Witness for C6 at concrete requests. -/
theorem claim_c6_allowlist_routes_witness :
    (handleRequest ⟨"POST", "/echo", some "1.2.3.4",
      [("Content-Type", "text/plain")], [], [], none, "", "", "http", "h",
      []⟩ [] 0 "T" .missing .timeout).resp.status = 403 ∧
    (handleRequest ⟨"POST", "/send-email", some "1.2.3.4",
      [("Content-Type", "application/json")], [("evil", "x")], [], none, "",
      "", "http", "h", []⟩ [] 0 "T" .missing .timeout).resp.status = 403 :=
  ⟨claim_c6_allowlist_routes.1 _ [] 0 "T" .missing .timeout rfl rfl (by decide),
   (claim_c6_allowlist_routes.2.1 _ [] 0 "T" .missing .timeout rfl rfl
     (by decide) ⟨"evil", by decide, by decide⟩).1⟩

/-- C6 counterexample: `/echo` with `Content-Type: text/plain` yields 403
(from the before-request allowlist check), not the claimed 415. -/
theorem claim_c6_allowlist_routes_cex :
    (handleRequest ⟨"POST", "/echo", some "1.2.3.4",
      [("Content-Type", "text/plain")], [], [], none, "", "", "http", "h",
      []⟩ [] 0 "T" .missing .timeout).resp.status ≠ 415 ∧
    (handleRequest ⟨"POST", "/echo", some "1.2.3.4",
      [("Content-Type", "text/plain")], [], [], none, "", "", "http", "h",
      []⟩ [] 0 "T" .missing .timeout).resp.status = 403 := by
  constructor <;> decide

end Waf

namespace Waf

/-- C8 (amended): `normalize_value` is idempotent on inputs whose first
pass stabilizes in a strong sense: the value before truncation fits the
30000-character cap and the first-pass output contains none of the
re-decodable characters `%`, `+`, `&`.  (The spec's proviso — "not
exceeding the max-iteration decode bound" — is not sufficient: see the
counterexample, whose percent-decode loop is already stable on the raw
input, yet a second full pass still changes the value because HTML
unescaping can *produce* characters that the next pass's
percent-plus-decoding consumes.) -/
theorem claim_c8_normalize_idempotent (x : String)
    (hlen : (collapseWs (htmlUnescapeL (pdecodeLoop 3 x.data))).length ≤
      MAX_PAYLOAD_LENGTH)
    (hch : ∀ c ∈ (normalize_value x).data,
      ¬ c = '%' ∧ ¬ c = '+' ∧ ¬ c = '&') :
    normalize_value (normalize_value x) = normalize_value x := by
  have hy : normalize_value x =
      ⟨collapseWs (htmlUnescapeL (pdecodeLoop 3 x.data))⟩ := by
    unfold normalize_value nfkc
    dsimp only
    rw [if_neg (by omega)]
  set z := collapseWs (htmlUnescapeL (pdecodeLoop 3 x.data)) with hz
  rw [hy] at hch
  rw [hy]
  have hch' : ∀ c ∈ z, ¬ c = '%' ∧ ¬ c = '+' ∧ ¬ c = '&' :=
    fun c hc => hch c hc
  unfold normalize_value nfkc
  dsimp only
  rw [pdecodeLoop_stable 3 z (unquotePlusL_plain z (fun c hc =>
    ⟨(hch' c hc).1, (hch' c hc).2.1⟩))]
  rw [htmlUnescapeL_no_amp z (fun c hc => (hch' c hc).2.2)]
  have hzz : collapseWs z = z := by
    rw [hz]
    exact collapseWs_idem _
  rw [hzz]
  rw [if_neg (by omega)]

/-- Witness for C8 at `x = "abc"`. -/
theorem claim_c8_normalize_idempotent_witness :
    normalize_value (normalize_value "abc") = normalize_value "abc" :=
  claim_c8_normalize_idempotent "abc" (by decide) (by decide)

/-- C8 counterexample: `"&#43;"` satisfies the spec's proviso (its
percent-decode loop is stable on the raw input, so the max-iteration
decode bound is not exceeded), yet normalization is not idempotent on it:
the first pass HTML-unescapes `&#43;` to `+`, and the second pass's
plus-decoding then turns that into a space, which strip removes. -/
theorem claim_c8_normalize_idempotent_cex :
    unquotePlusL (pdecodeLoop 3 "&#43;".data) = pdecodeLoop 3 "&#43;".data ∧
    normalize_value (normalize_value "&#43;") ≠ normalize_value "&#43;" := by
  constructor <;> decide

end Waf

namespace Waf

/-- C9: a request blocked by signature detection answers 403 and logs
exactly one record per distinct `(category, pattern)` match: the log list
is the image of the deduplicated match list, which has no duplicates and
holds exactly the matches of the raw and HTML-escaped detection passes;
every record carries a snippet of at most 150 characters and a
64-hex-character SHA-256 hexdigest of the full combined normalized
payload. -/
theorem claim_c9_audit_log (ctx : RequestCtx) (rate : RateLog) (now : ℤ)
    (timeStr : String)
    (hskip : skipDetectionRoute ctx.path ctx.method = false)
    (hallow : is_proxy_path ctx.path = true ∨
      (is_path_allowed ctx.path ctx.method (providedParams ctx)
        (some (headerGetD ctx.headers "Content-Type" ""))).1 = true)
    (hrate : (rateAllow (rateGet rate (ctx.remoteAddr.getD "unknown")) now).1 = true)
    (hstatic : staticOrImageSkip ctx = false)
    (hdet : detectPhase (make_combined_payload ctx) ≠ []) :
    (waf_before ctx rate now timeStr).resp =
      some ⟨403, [],
        .jsonError (sigBlockMsg (detectPhase (make_combined_payload ctx)))⟩ ∧
    (waf_before ctx rate now timeStr).logs =
      (detectPhase (make_combined_payload ctx)).map (fun m =>
        log_match timeStr (ctx.remoteAddr.getD "unknown") m.1 m.2 ctx.method
          ctx.path (headerGetD ctx.headers "User-Agent" "")
          (headerGetD ctx.headers "Referer" "") (make_combined_payload ctx)) ∧
    (detectPhase (make_combined_payload ctx)).Nodup ∧
    (∀ m, m ∈ detectPhase (make_combined_payload ctx) ↔
      m ∈ scanPayload (make_combined_payload ctx) ++
        scanPayload (htmlEscape (make_combined_payload ctx))) ∧
    (∀ rec ∈ (waf_before ctx rate now timeStr).logs,
      rec.snippet.length ≤ SNIPPET_LEN ∧
      rec.payload_hash = sha256hexUtf8 (make_combined_payload ctx) ∧
      rec.payload_hash.length = 64 ∧
      ∀ c ∈ rec.payload_hash.data, c ∈ "0123456789abcdef".data) := by
  have hb : waf_before ctx rate now timeStr = afterAllowlist ctx rate now timeStr :=
    waf_before_pass ctx rate now timeStr hskip hallow
  have ha := afterAllowlist_sig_block ctx rate now timeStr hrate hstatic hdet
  have hpne : make_combined_payload ctx ≠ "" := by
    intro h
    rw [h] at hdet
    exact hdet detectPhase_empty
  have hmk : mkSnippetAndHash (make_combined_payload ctx) =
      (⟨(make_combined_payload ctx).data.take SNIPPET_LEN⟩,
        sha256hexUtf8 (make_combined_payload ctx)) := by
    unfold mkSnippetAndHash
    rw [if_neg hpne]
  refine ⟨by rw [hb, ha], by rw [hb, ha], ?_, ?_, ?_⟩
  · unfold detectPhase
    exact dedupKeep_nodup _
  · intro m
    unfold detectPhase
    exact dedupKeep_mem _ m
  · intro rec hrec
    rw [hb, ha] at hrec
    dsimp only at hrec
    rcases List.mem_map.mp hrec with ⟨m, _, hm⟩
    have hsni : rec.snippet = ⟨(make_combined_payload ctx).data.take SNIPPET_LEN⟩ := by
      rw [← hm]
      unfold log_match
      dsimp only
      rw [hmk]
    have hhash : rec.payload_hash = sha256hexUtf8 (make_combined_payload ctx) := by
      rw [← hm]
      unfold log_match
      dsimp only
      rw [hmk]
    refine ⟨?_, hhash, by rw [hhash]; exact sha256hexUtf8_length _,
      fun c hc => sha256hexUtf8_hex _ c (by rw [← hhash]; exact hc)⟩
    rw [hsni]
    show ((make_combined_payload ctx).data.take SNIPPET_LEN).length ≤ SNIPPET_LEN
    rw [List.length_take]
    exact min_le_left _ _

/-- The concrete request of the C9 witness: a POST to `/` carrying the
query argument `q=xp_cmdshell`. -/
def c9ctx : RequestCtx :=
  ⟨"POST", "/", some "9.9.9.9", [], [("q", "xp_cmdshell")], [], none, "",
   "", "http", "h", []⟩

/-- Witness for C9 at `c9ctx`. -/
theorem claim_c9_audit_log_witness :
    (waf_before c9ctx [] 0 "T").resp =
      some ⟨403, [],
        .jsonError (sigBlockMsg (detectPhase (make_combined_payload c9ctx)))⟩ ∧
    (detectPhase (make_combined_payload c9ctx)).Nodup :=
  ⟨(claim_c9_audit_log c9ctx [] 0 "T" (by decide) (Or.inr (by decide))
      (by decide) (by decide) (by decide)).1,
   (claim_c9_audit_log c9ctx [] 0 "T" (by decide) (Or.inr (by decide))
      (by decide) (by decide) (by decide)).2.2.1⟩

end Waf
